import Mathlib

/-!
Shallow embedding of the IMMV (incrementally maintainable materialized view)
creation pipeline of `src/backend/commands/createas.c`:
the restriction checker (`check_ivm_restriction_walker`), the query rewriter
(`rewriteQueryForIMMV`, `makeIvmAggColumn`), the trigger provisioner
(`CreateIvmTriggersOnBaseTables`, `CreateIvmTrigger`), the primary-key
propagation analyzer (`get_primary_key_attnos_from_query`), the index
provisioner (`CreateIndexOnIMMV`) and the `ExecCreateTableAs` orchestration.

PostgreSQL node trees are embedded as Lean inductives; `ereport(ERROR, ...)`
sites become `Except IvmErr` results, one error constructor per distinct
diagnostic.  Functions defined outside `src/` (parser, optimizer and catalog
helpers) are modelled from the spec; each such definition carries a doc
comment starting with `Modelled from the spec:`.
-/

set_option maxHeartbeats 1000000

namespace PgIvm

/-- Object identifiers (`Oid`). The concrete numeric values of catalog
constants are opaque tokens here. -/
abbrev Oid := Nat

/-- Range-table entry kinds (`RTEKind`), restricted to the kinds the
embedded code inspects. -/
inductive RTEKind
  | relation | subquery | join | rtefunc | values | cte | result
deriving DecidableEq, Repr

/-- Relation kinds (`relkind`), restricted to those the checker inspects. -/
inductive RelKind
  | ordinary | partitioned | foreign | view | matview | nokind
deriving DecidableEq, Repr

/-- Join types; `IS_OUTER_JOIN` holds of `left`, `right` and `full`. -/
inductive JoinType
  | inner | left | right | full | semi | anti
deriving DecidableEq, Repr

def JoinType.isOuter : JoinType → Bool
  | .left | .right | .full => true
  | _ => false

/-- SubLink kinds (`SubLinkType`); the checker only accepts `existsSublink`. -/
inductive SubLinkKind
  | existsSublink | anySublink | allSublink | exprSublink
deriving DecidableEq, Repr

/-- Boolean expression operators (`BoolExprType`). -/
inductive BoolOp
  | andOp | orOp | notOp
deriving DecidableEq, Repr

/-- A `Var` as collected by the var-pulling helpers: range-table index,
attribute number (negative for system columns), query nesting level and type. -/
structure PVar where
  varno : Nat
  varattno : Int
  varlevelsup : Nat
  vartype : Oid
deriving DecidableEq, Repr

/-- Modelled from the spec: the slice of the system catalogs and of the
catalog-lookup helpers (`has_superclass`, `find_inheritance_children`,
`op_mergejoinable`, `get_mergejoin_opfamilies`, `op_hashjoinable`,
`func_strict`, `get_primary_key_attnos`) that live outside `src/`.
`pkey_attnos r` returns the primary-key column set of relation `r`, offset by
`FirstLowInvalidHeapAttributeNumber`, or `none` when `r` has no (usable)
primary key, exactly as `get_primary_key_attnos` is documented to. -/
structure Catalog where
  has_superclass : Oid → Bool
  has_inheritance_children : Oid → Bool
  op_mergejoinable : Oid → Oid → Bool
  mergeopfamilies_nonempty : Oid → Bool
  op_hashjoinable : Oid → Oid → Bool
  op_strict : Oid → Bool
  pkey_attnos : Oid → Option (List Int)
  pkey_constraint : Oid → Oid

/-- The boolean presence flags of a `Query` node. `hasGroupingSets`,
`hasSetOperations` and `hasRowMarks` stand for `groupingSets != NIL`,
`setOperations != NULL` and `rowMarks != NIL`. -/
structure QFlags where
  hasAggs : Bool
  hasSubLinks : Bool
  hasDistinctOn : Bool
  hasWindowFuncs : Bool
  hasRecursive : Bool
  hasGroupingSets : Bool
  hasSetOperations : Bool
  hasRowMarks : Bool
deriving DecidableEq, Repr

/-- The sort/group clause lists of a `Query`.  A `SortGroupClause` is
represented by its `tleSortGroupRef`; `get_sortgroupclause_tle` resolves it
against the target list's `ressortgroupref` marks. -/
structure QClauses where
  groupRefs : List Nat
  distinctRefs : List Nat
  sortRefs : List Nat
deriving DecidableEq, Repr

/-- The non-recursive fields of a range-table entry. `tablesample` stands for
`rte->tablesample != NULL`; `colnames` is `rte->eref->colnames`. -/
structure RTEBase where
  rtekind : RTEKind
  relid : Oid
  relkind : RelKind
  lateral : Bool
  tablesample : Bool
  colnames : List String
  ctename : String
deriving DecidableEq, Repr

mutual

/-- Expression nodes, restricted to the node kinds the embedded code
dispatches on.  `funcE` carries the volatility/strictness bits the external
predicates `contain_mutable_functions` / `contain_nonstrict_functions`
consult through the catalog. -/
inductive Expr where
  | varE (varno : Nat) (varattno : Int) (vartype : Oid) (varlevelsup : Nat)
  | constE (consttype : Oid) (constisnull : Bool)
  | opE (opno : Oid) (opresulttype : Oid) (args : List Expr)
  | funcE (funcid : Oid) (funcresulttype : Oid) (funcMutable : Bool)
      (funcStrict : Bool) (args : List Expr)
  | boolE (boolop : BoolOp) (args : List Expr)
  | aggE (aggfnoid : Oid) (aggtype : Oid) (agglevelsup : Nat)
      (aggargtypes : List Oid) (args : List Expr)
      (aggHasFilter : Bool) (aggHasDistinct : Bool) (aggHasOrder : Bool)
  | subLinkE (linkKind : SubLinkKind) (subselect : Query)

/-- A target-list entry (`TargetEntry`). -/
inductive TargetEntry where
  | mk (expr : Expr) (resno : Nat) (resname : String) (resjunk : Bool)
      (ressortgroupref : Nat)

/-- A range-table entry (`RangeTblEntry`). -/
inductive RTEntry where
  | mk (base : RTEBase) (subquery : Option Query) (joinaliasvars : List Expr)

/-- Join-tree nodes: `RangeTblRef`, `FromExpr` and `JoinExpr`. -/
inductive JtNode where
  | rtref (rtindex : Nat)
  | fromE (fromlist : List JtNode) (quals : Option Expr)
  | joinE (jointype : JoinType) (larg rarg : JtNode) (quals : Option Expr)

/-- A common table expression (`CommonTableExpr`). -/
inductive Cte where
  | mk (ctename : String) (ctequery : Query)

/-- A `Query` node.  Its join tree is `FromExpr(fromlist, whereQuals)`. -/
inductive Query where
  | mk (targetList : List TargetEntry)
      (rtable : List RTEntry)
      (fromlist : List JtNode)
      (whereQuals : Option Expr)
      (havingQual : Option Expr)
      (limitOffset : Option Expr)
      (limitCount : Option Expr)
      (cteList : List Cte)
      (clauses : QClauses)
      (flags : QFlags)

end

-- Field accessors for the mutually defined node types.

def TargetEntry.expr : TargetEntry → Expr | .mk e _ _ _ _ => e
def TargetEntry.resno : TargetEntry → Nat | .mk _ n _ _ _ => n
def TargetEntry.resname : TargetEntry → String | .mk _ _ s _ _ => s
def TargetEntry.resjunk : TargetEntry → Bool | .mk _ _ _ j _ => j
def TargetEntry.ressortgroupref : TargetEntry → Nat | .mk _ _ _ _ r => r

def RTEntry.base : RTEntry → RTEBase | .mk b _ _ => b
def RTEntry.subquery : RTEntry → Option Query | .mk _ s _ => s
def RTEntry.joinaliasvars : RTEntry → List Expr | .mk _ _ v => v
def RTEntry.rtekind (r : RTEntry) : RTEKind := r.base.rtekind
def RTEntry.relid (r : RTEntry) : Oid := r.base.relid
def RTEntry.relkind (r : RTEntry) : RelKind := r.base.relkind
def RTEntry.lateral (r : RTEntry) : Bool := r.base.lateral
def RTEntry.tablesample (r : RTEntry) : Bool := r.base.tablesample
def RTEntry.colnames (r : RTEntry) : List String := r.base.colnames
def RTEntry.ctename (r : RTEntry) : String := r.base.ctename

def Cte.ctename : Cte → String | .mk n _ => n
def Cte.ctequery : Cte → Query | .mk _ q => q

def Query.targetList : Query → List TargetEntry
  | .mk tl _ _ _ _ _ _ _ _ _ => tl
def Query.rtable : Query → List RTEntry
  | .mk _ rt _ _ _ _ _ _ _ _ => rt
def Query.fromlist : Query → List JtNode
  | .mk _ _ fl _ _ _ _ _ _ _ => fl
def Query.whereQuals : Query → Option Expr
  | .mk _ _ _ w _ _ _ _ _ _ => w
def Query.havingQual : Query → Option Expr
  | .mk _ _ _ _ h _ _ _ _ _ => h
def Query.limitOffset : Query → Option Expr
  | .mk _ _ _ _ _ lo _ _ _ _ => lo
def Query.limitCount : Query → Option Expr
  | .mk _ _ _ _ _ _ lc _ _ _ => lc
def Query.cteList : Query → List Cte
  | .mk _ _ _ _ _ _ _ c _ _ => c
def Query.clauses : Query → QClauses
  | .mk _ _ _ _ _ _ _ _ cl _ => cl
def Query.flags : Query → QFlags
  | .mk _ _ _ _ _ _ _ _ _ f => f

def Query.groupClause (q : Query) : List Nat := q.clauses.groupRefs
def Query.distinctClause (q : Query) : List Nat := q.clauses.distinctRefs
def Query.sortClause (q : Query) : List Nat := q.clauses.sortRefs
def Query.hasAggs (q : Query) : Bool := q.flags.hasAggs
def Query.hasSubLinks (q : Query) : Bool := q.flags.hasSubLinks
def Query.hasDistinctOn (q : Query) : Bool := q.flags.hasDistinctOn
def Query.hasWindowFuncs (q : Query) : Bool := q.flags.hasWindowFuncs
def Query.hasRecursive (q : Query) : Bool := q.flags.hasRecursive
def Query.hasGroupingSets (q : Query) : Bool := q.flags.hasGroupingSets
def Query.hasSetOperations (q : Query) : Bool := q.flags.hasSetOperations
def Query.hasRowMarks (q : Query) : Bool := q.flags.hasRowMarks

/-- Replace the target list of a query. -/
def Query.withTargetList : Query → List TargetEntry → Query
  | .mk _ rt fl w h lo lc c cl f, tl => .mk tl rt fl w h lo lc c cl f

/-- Replace the group clause of a query. -/
def Query.withGroupRefs : Query → List Nat → Query
  | .mk tl rt fl w h lo lc c cl f, g =>
      .mk tl rt fl w h lo lc c { cl with groupRefs := g } f

/-- Set the `hasAggs` flag of a query. -/
def Query.withHasAggs : Query → Bool → Query
  | .mk tl rt fl w h lo lc c cl f, b =>
      .mk tl rt fl w h lo lc c cl { f with hasAggs := b }

/-- Set the `hasSubLinks` flag of a query. -/
def Query.withHasSubLinks : Query → Bool → Query
  | .mk tl rt fl w h lo lc c cl f, b =>
      .mk tl rt fl w h lo lc c cl { f with hasSubLinks := b }

/-- Replace range table, from-list and WHERE quals at once (used by the
EXISTS-sublink rewrite). -/
def Query.withRtableFromWhere : Query → List RTEntry → List JtNode → Option Expr → Query
  | .mk tl _ _ _ h lo lc c cl f, rt, fl, w => .mk tl rt fl w h lo lc c cl f

/-! ### Catalog constants and external naming helpers -/

/-- `FirstLowInvalidHeapAttributeNumber` from `access/sysattr.h` (outside
`src/`); the fixed negative bias used to offset attribute numbers in
bitmapsets of key columns. -/
def FirstLowInvalidHeapAttributeNumber : Int := -7

/-- `PRS2_NEW_VARNO` from `rewrite/prs2lock.h` (outside `src/`). -/
def PRS2_NEW_VARNO : Nat := 2

def BOOLOID : Oid := 16
def INT2OID : Oid := 21
def INT4OID : Oid := 23
def INT8OID : Oid := 20
def FLOAT4OID : Oid := 700
def FLOAT8OID : Oid := 701
def NUMERICOID : Oid := 1700

/-- Modelled from the spec: the `F_COUNT_ANY`/`F_COUNT_` … constants of
`utils/fmgroids.h` (outside `src/`) are the `pg_proc` OIDs of the aggregate
functions on the Aggregate-Support allow-list; they are opaque distinct
tokens for the embedding. -/
def F_COUNT_ANY : Oid := 2147
def F_COUNT_ : Oid := 2803
def F_SUM_INT8 : Oid := 2107
def F_SUM_INT4 : Oid := 2108
def F_SUM_INT2 : Oid := 2109
def F_SUM_FLOAT4 : Oid := 2110
def F_SUM_FLOAT8 : Oid := 2111
def F_SUM_MONEY : Oid := 2112
def F_SUM_INTERVAL : Oid := 2113
def F_SUM_NUMERIC : Oid := 2114
def F_AVG_INT8 : Oid := 2100
def F_AVG_INT4 : Oid := 2101
def F_AVG_INT2 : Oid := 2102
def F_AVG_NUMERIC : Oid := 2103
def F_AVG_FLOAT4 : Oid := 2104
def F_AVG_FLOAT8 : Oid := 2105
def F_AVG_INTERVAL : Oid := 2106

/-- Modelled from the spec: the `pg_proc` OID blocks of the `min`/`max`
aggregates on the allow-list (21 each in `check_aggregate_supports_ivm`);
represented as two opaque OID ranges disjoint from the constants above. -/
def ivm_min_agg_fnoids : List Oid := (List.range 21).map (fun i => 5000 + i)
def ivm_max_agg_fnoids : List Oid := (List.range 21).map (fun i => 5100 + i)

/-- The Aggregate-Support allow-list of `check_aggregate_supports_ivm`
(createas.c:1538-1616): `count`, `sum`, `avg` and the `min`/`max` families. -/
def ivm_supported_agg_fnoids : List Oid :=
  [F_COUNT_ANY, F_COUNT_,
   F_SUM_INT8, F_SUM_INT4, F_SUM_INT2, F_SUM_FLOAT4, F_SUM_FLOAT8,
   F_SUM_MONEY, F_SUM_INTERVAL, F_SUM_NUMERIC,
   F_AVG_INT8, F_AVG_INT4, F_AVG_INT2, F_AVG_NUMERIC, F_AVG_FLOAT4,
   F_AVG_FLOAT8, F_AVG_INTERVAL]
  ++ ivm_min_agg_fnoids ++ ivm_max_agg_fnoids

/-- `check_aggregate_supports_ivm` (createas.c:1538): membership in the fixed
allow-list. -/
def check_aggregate_supports_ivm (aggfnoid : Oid) : Bool :=
  aggfnoid ∈ ivm_supported_agg_fnoids

/-- Modelled from the spec: `get_func_name` (catalog lookup outside `src/`)
restricted to the aggregate allow-list; `""` for identifiers outside the
modelled catalog slice. -/
def get_func_name (fnoid : Oid) : String :=
  if fnoid = F_COUNT_ANY ∨ fnoid = F_COUNT_ then "count"
  else if fnoid ∈ [F_SUM_INT8, F_SUM_INT4, F_SUM_INT2, F_SUM_FLOAT4,
                   F_SUM_FLOAT8, F_SUM_MONEY, F_SUM_INTERVAL, F_SUM_NUMERIC]
    then "sum"
  else if fnoid ∈ [F_AVG_INT8, F_AVG_INT4, F_AVG_INT2, F_AVG_NUMERIC,
                   F_AVG_FLOAT4, F_AVG_FLOAT8, F_AVG_INTERVAL]
    then "avg"
  else if fnoid ∈ ivm_min_agg_fnoids then "min"
  else if fnoid ∈ ivm_max_agg_fnoids then "max"
  else ""

/-- Modelled from the spec: the function-name resolution performed by
`ParseFuncOrColumn` (parser, outside `src/`) for `sum` over the given
argument types, as used by `makeIvmAggColumn` to build the `avg` companion. -/
def resolve_sum_fnoid (argtys : List Oid) : Oid :=
  if argtys = [INT8OID] then F_SUM_INT8
  else if argtys = [INT4OID] then F_SUM_INT4
  else if argtys = [INT2OID] then F_SUM_INT2
  else if argtys = [FLOAT4OID] then F_SUM_FLOAT4
  else if argtys = [FLOAT8OID] then F_SUM_FLOAT8
  else if argtys = [NUMERICOID] then F_SUM_NUMERIC
  else 0

/-- Modelled from the spec: result type of the resolved `sum` aggregate
(`sum(int2|int4) : int8`, `sum(int8) : numeric`, floats keep their type). -/
def resolve_sum_rettype (argtys : List Oid) : Oid :=
  if argtys = [INT8OID] then NUMERICOID
  else if argtys = [INT4OID] ∨ argtys = [INT2OID] then INT8OID
  else if argtys = [FLOAT4OID] then FLOAT4OID
  else if argtys = [FLOAT8OID] then FLOAT8OID
  else if argtys = [NUMERICOID] then NUMERICOID
  else 0

/-- Character-list prefix test (the equivalent of `strncmp(s, p, |p|) == 0`). -/
def strStartsWith (s p : String) : Bool := s.data.take p.data.length = p.data

/-- Modelled from the spec: `isIvmName` (matview code outside `src/`) — a
name collides with the reserved internal prefix `__ivm_` of the bookkeeping
columns. -/
def isIvmName (s : String) : Bool := strStartsWith s "__ivm_"

/-- Modelled from the spec: `makeObjectName name1 name2 label` (outside
`src/`), which `makeIvmAggColumn` calls as
`makeObjectName "__ivm_count" resname "_"`; the spec fixes the generated
identifiers as `__ivm_count_<colname>_` and `__ivm_sum_<colname>_`. -/
def makeObjectName (name1 name2 label : String) : String :=
  name1 ++ "_" ++ name2 ++ label

/-- Modelled from the spec: `getColumnNameStartWith` (matview code outside
`src/`): the first column name of the range-table entry starting with the
given prefix, together with its 1-based attribute number. -/
def getColumnNameStartWith (rte : RTEntry) (pre : String) : Option (String × Nat) :=
  match rte.colnames.findIdx? (fun s => strStartsWith s pre) with
  | some i => (rte.colnames.get? i).map (fun n => (n, i + 1))
  | none => none

/-- `exprType` (nodeFuncs.c, outside `src/`) on the embedded node kinds. -/
def exprType : Expr → Oid
  | .varE _ _ t _ => t
  | .constE t _ => t
  | .opE _ t _ => t
  | .funcE _ t _ _ _ => t
  | .boolE _ _ => BOOLOID
  | .aggE _ t _ _ _ _ _ _ => t
  | .subLinkE _ _ => BOOLOID

/-! ### Var collection, alias flattening and clause predicates
(models of the `optimizer/util` helpers, which live outside `src/`) -/

mutual

/-- Modelled from the spec: `pull_vars_of_level` on an expression — all
`Var`s whose `varlevelsup`, adjusted for intervening subquery boundaries,
equals the given level. -/
def exprVarsAtLevel (lvl : Nat) : Expr → List PVar
  | .varE v a t l => if l = lvl then [⟨v, a, l, t⟩] else []
  | .constE _ _ => []
  | .opE _ _ args => exprListVarsAtLevel lvl args
  | .funcE _ _ _ _ args => exprListVarsAtLevel lvl args
  | .boolE _ args => exprListVarsAtLevel lvl args
  | .aggE _ _ _ _ args _ _ _ => exprListVarsAtLevel lvl args
  | .subLinkE _ sub => queryVarsAtLevel (lvl + 1) sub

def exprListVarsAtLevel (lvl : Nat) : List Expr → List PVar
  | [] => []
  | e :: es => exprVarsAtLevel lvl e ++ exprListVarsAtLevel lvl es

def optExprVarsAtLevel (lvl : Nat) : Option Expr → List PVar
  | none => []
  | some e => exprVarsAtLevel lvl e

def tleListVarsAtLevel (lvl : Nat) : List TargetEntry → List PVar
  | [] => []
  | .mk e _ _ _ _ :: ts => exprVarsAtLevel lvl e ++ tleListVarsAtLevel lvl ts

def rtableVarsAtLevel (lvl : Nat) : List RTEntry → List PVar
  | [] => []
  | .mk _ sub jvars :: rs =>
      (match sub with
       | some sq => queryVarsAtLevel (lvl + 1) sq
       | none => [])
      ++ exprListVarsAtLevel lvl jvars ++ rtableVarsAtLevel lvl rs

def cteListVarsAtLevel (lvl : Nat) : List Cte → List PVar
  | [] => []
  | .mk _ cq :: cs => queryVarsAtLevel (lvl + 1) cq ++ cteListVarsAtLevel lvl cs

def jtVarsAtLevel (lvl : Nat) : JtNode → List PVar
  | .rtref _ => []
  | .fromE fl q => jtListVarsAtLevel lvl fl ++ optExprVarsAtLevel lvl q
  | .joinE _ la ra q =>
      jtVarsAtLevel lvl la ++ jtVarsAtLevel lvl ra ++ optExprVarsAtLevel lvl q

def jtListVarsAtLevel (lvl : Nat) : List JtNode → List PVar
  | [] => []
  | n :: ns => jtVarsAtLevel lvl n ++ jtListVarsAtLevel lvl ns

/-- Modelled from the spec: `pull_vars_of_level` on a whole query. -/
def queryVarsAtLevel (lvl : Nat) : Query → List PVar
  | .mk tl rt fl w h lo lc c _ _ =>
      tleListVarsAtLevel lvl tl ++ rtableVarsAtLevel lvl rt
      ++ jtListVarsAtLevel lvl fl ++ optExprVarsAtLevel lvl w
      ++ optExprVarsAtLevel lvl h ++ optExprVarsAtLevel lvl lo
      ++ optExprVarsAtLevel lvl lc ++ cteListVarsAtLevel lvl c

end

/-- Modelled from the spec: `pull_vars_of_level(node, 0)` for an optional
qualifier expression. -/
def optExprVars0 (e : Option Expr) : List PVar := optExprVarsAtLevel 0 e

mutual

/-- Modelled from the spec: `contain_aggs_of_level(node, 0)` — does the
expression contain an `Aggref` belonging to the given query level? -/
def exprHasAggsOfLevel (lvl : Nat) : Expr → Bool
  | .varE _ _ _ _ => false
  | .constE _ _ => false
  | .opE _ _ args => exprListHasAggsOfLevel lvl args
  | .funcE _ _ _ _ args => exprListHasAggsOfLevel lvl args
  | .boolE _ args => exprListHasAggsOfLevel lvl args
  | .aggE _ _ al _ args _ _ _ =>
      al = lvl || exprListHasAggsOfLevel lvl args
  | .subLinkE _ sub => queryHasAggsOfLevel (lvl + 1) sub

def exprListHasAggsOfLevel (lvl : Nat) : List Expr → Bool
  | [] => false
  | e :: es => exprHasAggsOfLevel lvl e || exprListHasAggsOfLevel lvl es

def tleListHasAggsOfLevel (lvl : Nat) : List TargetEntry → Bool
  | [] => false
  | .mk e _ _ _ _ :: ts =>
      exprHasAggsOfLevel lvl e || tleListHasAggsOfLevel lvl ts

def queryHasAggsOfLevel (lvl : Nat) : Query → Bool
  | .mk tl _ _ w h _ _ _ _ _ =>
      tleListHasAggsOfLevel lvl tl
      || (match w with | some e => exprHasAggsOfLevel lvl e | none => false)
      || (match h with | some e => exprHasAggsOfLevel lvl e | none => false)

end

mutual

/-- Modelled from the spec: `contain_mutable_functions` — does the tree
mention a function not marked immutable? -/
def exprHasMutable : Expr → Bool
  | .varE _ _ _ _ => false
  | .constE _ _ => false
  | .opE _ _ args => exprListHasMutable args
  | .funcE _ _ m _ args => m || exprListHasMutable args
  | .boolE _ args => exprListHasMutable args
  | .aggE _ _ _ _ args _ _ _ => exprListHasMutable args
  | .subLinkE _ sub => queryHasMutable sub

def exprListHasMutable : List Expr → Bool
  | [] => false
  | e :: es => exprHasMutable e || exprListHasMutable es

def optExprHasMutable : Option Expr → Bool
  | none => false
  | some e => exprHasMutable e

def tleListHasMutable : List TargetEntry → Bool
  | [] => false
  | .mk e _ _ _ _ :: ts => exprHasMutable e || tleListHasMutable ts

def rtableHasMutable : List RTEntry → Bool
  | [] => false
  | .mk _ sub jvars :: rs =>
      (match sub with | some sq => queryHasMutable sq | none => false)
      || exprListHasMutable jvars || rtableHasMutable rs

def cteListHasMutable : List Cte → Bool
  | [] => false
  | .mk _ cq :: cs => queryHasMutable cq || cteListHasMutable cs

def jtHasMutable : JtNode → Bool
  | .rtref _ => false
  | .fromE fl q => jtListHasMutable fl || optExprHasMutable q
  | .joinE _ la ra q =>
      jtHasMutable la || jtHasMutable ra || optExprHasMutable q

def jtListHasMutable : List JtNode → Bool
  | [] => false
  | n :: ns => jtHasMutable n || jtListHasMutable ns

def queryHasMutable : Query → Bool
  | .mk tl rt fl w h lo lc c _ _ =>
      tleListHasMutable tl || rtableHasMutable rt || jtListHasMutable fl
      || optExprHasMutable w || optExprHasMutable h
      || optExprHasMutable lo || optExprHasMutable lc || cteListHasMutable c

end

/-- Modelled from the spec: `contain_mutable_functions((Node *) query)`. -/
def contain_mutable_functions (q : Query) : Bool := queryHasMutable q

mutual

/-- Modelled from the spec: `contain_nonstrict_functions` — the expression
contains a construct that can yield non-NULL from NULL input (non-strict
functions and operators, AND/OR, aggregates, sublinks). -/
def exprNonStrict (cat : Catalog) : Expr → Bool
  | .varE _ _ _ _ => false
  | .constE _ _ => false
  | .opE opno _ args =>
      !cat.op_strict opno || exprListNonStrict cat args
  | .funcE _ _ _ strict args => !strict || exprListNonStrict cat args
  | .boolE op args =>
      match op with
      | .notOp => exprListNonStrict cat args
      | _ => true
  | .aggE _ _ _ _ _ _ _ _ => true
  | .subLinkE _ _ => true

def exprListNonStrict (cat : Catalog) : List Expr → Bool
  | [] => false
  | e :: es => exprNonStrict cat e || exprListNonStrict cat es

end

/-- Modelled from the spec: `contain_nonstrict_functions((Node *) targetList)`. -/
def contain_nonstrict_functions (cat : Catalog) (tl : List TargetEntry) : Bool :=
  tl.any (fun t => exprNonStrict cat t.expr)

mutual

/-- Modelled from the spec: `find_nonnullable_vars` — the variables forced
non-NULL when the qualifier evaluates to true: top-level strict operator and
function applications, closed under AND. -/
def exprNonnullableVars (cat : Catalog) : Expr → List PVar
  | .opE opno _ args =>
      if cat.op_strict opno then exprListVarsAtLevel 0 args else []
  | .funcE _ _ _ strict args =>
      if strict then exprListVarsAtLevel 0 args else []
  | .boolE .andOp args => exprListNonnullableVars cat args
  | _ => []

def exprListNonnullableVars (cat : Catalog) : List Expr → List PVar
  | [] => []
  | e :: es => exprNonnullableVars cat e ++ exprListNonnullableVars cat es

end

/-- Modelled from the spec: `find_nonnullable_vars` on an optional qual. -/
def find_nonnullable_vars (cat : Catalog) : Option Expr → List PVar
  | none => []
  | some e => exprNonnullableVars cat e

mutual

/-- Modelled from the spec: one pass of `flatten_join_alias_vars` — each
level-0 `Var` referencing a join range-table entry is replaced by the
corresponding join alias expression (sublinks are left untouched). -/
def flattenOnceE (rt : List RTEntry) : Expr → Expr
  | .varE v a t l =>
      if l = 0 then
        match rt.get? (v - 1) with
        | some rte =>
            if rte.rtekind = .join then
              match rte.joinaliasvars.get? (a.toNat - 1) with
              | some e => e
              | none => .varE v a t l
            else .varE v a t l
        | none => .varE v a t l
      else .varE v a t l
  | .constE t n => .constE t n
  | .opE o t args => .opE o t (flattenOnceList rt args)
  | .funcE f t m s args => .funcE f t m s (flattenOnceList rt args)
  | .boolE op args => .boolE op (flattenOnceList rt args)
  | .aggE f t al atys args fl d or' => .aggE f t al atys (flattenOnceList rt args) fl d or'
  | .subLinkE k sub => .subLinkE k sub

def flattenOnceList (rt : List RTEntry) : List Expr → List Expr
  | [] => []
  | e :: es => flattenOnceE rt e :: flattenOnceList rt es

end

/-- Modelled from the spec: `flatten_join_alias_vars(qry, node)` — join alias
variables are expanded recursively; one pass per range-table entry reaches
the fixpoint because join alias expansions only reference earlier entries. -/
def flatten_join_alias_vars (q : Query) (e : Expr) : Expr :=
  (List.range q.rtable.length).foldl (fun acc _ => flattenOnceE q.rtable acc) e

/-- `flatten_join_alias_vars` applied to an optional qualifier. -/
def flattenOpt (q : Query) : Option Expr → Option Expr
  | none => none
  | some e => some (flatten_join_alias_vars q e)

/-- Modelled from the spec: `pull_varnos(root, node)` — the distinct
range-table indexes referenced by level-0 variables of the expression. -/
def pull_varnos (e : Expr) : List Nat :=
  ((exprVarsAtLevel 0 e).map (fun v => v.varno)).dedup

mutual

/-- Modelled from the spec: `pull_varnos_of_level(root, jointree, 0)` — the
range-table indexes referenced by the join tree: `RangeTblRef` indexes plus
the varnos of level-0 qualifier variables. -/
def jtRelsInFrom : JtNode → List Nat
  | .rtref i => [i]
  | .fromE fl q =>
      jtListRelsInFrom fl ++ (optExprVars0 q).map (fun v => v.varno)
  | .joinE _ la ra q =>
      jtRelsInFrom la ++ jtRelsInFrom ra
      ++ (optExprVars0 q).map (fun v => v.varno)

def jtListRelsInFrom : List JtNode → List Nat
  | [] => []
  | n :: ns => jtRelsInFrom n ++ jtListRelsInFrom ns

end

/-- The range-table indexes appearing in the FROM clause of a query
(`rels_in_from` at createas.c:1928). -/
def rels_in_from (q : Query) : List Nat :=
  jtRelsInFrom (.fromE q.fromlist q.whereQuals)

/-- `is_equijoin_condition` (createas.c:1498): a binary operator clause whose
two sides each reference exactly one relation, different on each side, with a
merge-joinable (with a non-empty opfamily list) or hash-joinable operator. -/
def is_equijoin_condition (cat : Catalog) : Expr → Bool
  | .opE opno _ [le, re] =>
      let lv := pull_varnos le
      let rv := pull_varnos re
      let ity := exprType le
      if lv.length ≠ 1 ∨ rv.length ≠ 1 ∨ (lv = rv) then false
      else if cat.op_mergejoinable opno ity ∧ cat.mergeopfamilies_nonempty opno then true
      else if cat.op_hashjoinable opno ity then true
      else false
  | _ => false

/-! ### The restriction checker (`check_ivm_restriction_walker`) -/

/-- One constructor per distinct diagnostic raised by the embedded code; the
`…Hint` constructors are the "this query is not allowed …" errors
distinguished by their hint text. -/
inductive IvmErr where
  | havingErr            -- "HAVING clause is not supported …"
  | orderByErr           -- "ORDER BY clause is not supported …"
  | limitErr             -- "LIMIT/OFFSET clause is not supported …"
  | distinctOnErr        -- "DISTINCT ON is not supported …"
  | windowErr            -- "window functions are not supported …"
  | groupingSetsErr      -- "GROUPING SETS, ROLLUP, or CUBE clauses …"
  | setOpErr             -- "UNION/INTERSECT/EXCEPT statements …"
  | emptyTargetListErr   -- "empty target list is not supported …"
  | rowMarksErr          -- "FOR UPDATE/SHARE clause is not supported …"
  | recursiveCteErr      -- "recursive CTE is not supported …"
  | systemColumnErr      -- "system column is not supported …"
  | nestedDistinctErr    -- "DISTINCT clause in nested query are not supported …"
  | nestedAggErr         -- "aggregate functions in nested query are not supported …"
  | tablesampleErr       -- "TABLESAMPLE clause is not supported …"
  | partitionedErr       -- "partitioned table is not supported …"
  | partitionsErr        -- "partitions is not supported …"
  | inheritanceParentErr -- "inheritance parent is not supported …"
  | foreignTableErr      -- "foreign table is not supported …"
  | viewErr              -- "VIEW or MATERIALIZED VIEW is not supported …"
  | valuesErr            -- "VALUES is not supported …"
  | subqueryWithOuterJoinHint -- hint "subquery or CTE is not supported with outer join"
  | aggWithOuterJoinHint      -- hint "aggregate is not supported with outer join"
  | existsTlistHint      -- hint "targetlist must contain vars that are referred to in EXISTS subquery"
  | equijoinHint         -- hint "Only simple equijoin is supported with outer join"
  | joinVarsTlistHint    -- hint "targetlist must contain vars in the join condition with outer join"
  | whereNonNullableHint -- hint "WHERE cannot contain non null-rejecting predicates with outer join"
  | nonStrictTlistHint   -- hint "targetlist cannot contain non strict functions with outer join"
  | cteNameErr (name : String)    -- "CTE name … is not supported …"
  | columnNameErr (name : String) -- "column name … is not supported …"
  | aggWrapErr           -- "expression containing an aggregate in it is not supported …"
  | tlistSublinkHint     -- hint "subquery is not supported in targetlist"
  | sublinkKindHint      -- hint "subquery in WHERE clause only supports subquery with EXISTS clause"
  | nestedSublinkErr     -- "nested subquery is not supported …"
  | sublinkOuterJoinHint -- hint "subquery with outer join is not supported"
  | aggFilterErr         -- "aggregate function with FILTER clause …"
  | aggDistinctArgsErr   -- "aggregate function with DISTINCT arguments …"
  | aggOrderErr          -- "aggregate function with ORDER clause …"
  | aggNotSupportedErr (fnoid : Oid) -- "aggregate function … is not supported …"
  | mutableFunctionErr   -- "mutable function is not supported …"
  | groupByNotInTlistErr -- "GROUP BY expression not appearing in select list …"
  | sortGroupRefLookupErr -- get_sortgroupclause_tle internal lookup failure
deriving DecidableEq, Repr

/-- `check_ivm_restriction_context` (createas.c:84-93). -/
structure ChkCtx where
  has_agg : Bool
  has_outerjoin : Bool
  has_subquery : Bool
  in_exists_subquery : Bool
  join_quals : List Expr
  exists_qual_vars : List PVar
  sublevels_up : Nat

def Expr.isAggref : Expr → Bool
  | .aggE _ _ _ _ _ _ _ _ => true
  | _ => false

def Expr.isSubLinkNode : Expr → Bool
  | .subLinkE _ _ => true
  | _ => false

/-- The per-level scalar restrictions of the `T_Query` case
(createas.c:1142-1208), in source order: HAVING, ORDER BY, LIMIT/OFFSET,
DISTINCT ON, window functions, grouping sets, set operations, empty target
list, row marks, recursive CTE, system columns, and the nested-query
restrictions on DISTINCT and aggregates. -/
def check_scalar_restrictions (sublevels_up : Nat) (q : Query) : Except IvmErr Unit := do
  if q.havingQual.isSome then throw .havingErr
  if q.sortClause ≠ [] then throw .orderByErr
  if q.limitOffset.isSome ∨ q.limitCount.isSome then throw .limitErr
  if q.hasDistinctOn then throw .distinctOnErr
  if q.hasWindowFuncs then throw .windowErr
  if q.hasGroupingSets then throw .groupingSetsErr
  if q.hasSetOperations then throw .setOpErr
  if q.targetList.length = 0 then throw .emptyTargetListErr
  if q.hasRowMarks then throw .rowMarksErr
  if q.hasRecursive then throw .recursiveCteErr
  if (queryVarsAtLevel 0 q).any (fun v => v.varattno < 0) then
    throw .systemColumnErr
  if sublevels_up > 0 ∧ q.distinctClause ≠ [] then throw .nestedDistinctErr
  if sublevels_up > 0 ∧ q.hasAggs then throw .nestedAggErr

/-- The per-range-table-entry restrictions (createas.c:1217-1251), up to but
not including the subquery descent. -/
def check_rte_scalar (cat : Catalog) (b : RTEBase) : Except IvmErr Unit := do
  if b.tablesample then throw .tablesampleErr
  if b.relkind = .partitioned then throw .partitionedErr
  if b.relkind = .ordinary ∧ cat.has_superclass b.relid then throw .partitionsErr
  if b.relkind = .ordinary ∧ cat.has_inheritance_children b.relid then
    throw .inheritanceParentErr
  if b.relkind = .foreign then throw .foreignTableErr
  if b.relkind = .view ∨ b.relkind = .matview then throw .viewErr
  if b.rtekind = .values then throw .valuesErr

/-- The `T_TargetEntry` checks (createas.c:1384-1399): reserved column names,
expressions wrapping an aggregate, and sublinks in the target list. -/
def check_target_entry (has_agg : Bool) (tle : TargetEntry) : Except IvmErr Unit := do
  if isIvmName tle.resname then throw (.columnNameErr tle.resname)
  if has_agg ∧ ¬tle.expr.isAggref ∧ exprHasAggsOfLevel 0 tle.expr then
    throw .aggWrapErr
  if tle.expr.isSubLinkNode then throw .tlistSublinkHint

/-- `list_difference` (outside `src/`): the members of the first list that do
not appear in the second. -/
def list_difference (l1 l2 : List PVar) : List PVar :=
  l1.filter (fun v => v ∉ l2)

/-- The variables of the outer-join qualifiers collected at
createas.c:1322-1323: each qual is alias-flattened and its level-0 variables
are concatenated. -/
def oj_qual_vars (q : Query) (join_quals : List Expr) : List PVar :=
  join_quals.flatMap (fun jq => exprVarsAtLevel 0 (flatten_join_alias_vars q jq))

/-- The bare-`Var` target-list match of createas.c:1336-1344: the entry is a
`Var` and its alias-flattened form has the variable's `varno`/`varattno`. -/
def tle_flat_var_match (q : Query) (tle : TargetEntry) (v : PVar) : Bool :=
  match tle.expr with
  | .varE _ _ _ _ =>
      match flatten_join_alias_vars q tle.expr with
      | .varE v2 a2 _ _ => v.varno = v2 ∧ v.varattno = a2
      | _ => false
  | _ => false

/-- The WHERE-clause variables of createas.c:1353: the alias-flattened
`jointree->quals` pulled at level 0. -/
def oj_where_vars (q : Query) : List PVar :=
  optExprVars0 (flattenOpt q q.whereQuals)

/-- The additional restriction checks for outer-join queries
(createas.c:1305-1366), run at nesting level 0 when an outer join was seen:
every collected join qual must be a simple equijoin; every variable of those
quals must reappear as a bare target-list column; every WHERE variable must
be in the non-nullable set of the WHERE qualifiers; and the target list must
not contain non-strict functions. -/
def check_outerjoin_quals (cat : Catalog) (join_quals : List Expr) (q : Query) :
    Except IvmErr Unit := do
  let nonnullable_vars := find_nonnullable_vars cat q.whereQuals
  if join_quals.any (fun jq => !is_equijoin_condition cat jq) then
    throw .equijoinHint
  if (oj_qual_vars q join_quals).any
      (fun v => !q.targetList.any (fun tle => tle_flat_var_match q tle v)) then
    throw .joinVarsTlistHint
  if (list_difference (oj_where_vars q) nonnullable_vars).length > 0 then
    throw .whereNonNullableHint
  if contain_nonstrict_functions cat q.targetList then
    throw .nonStrictTlistHint

/-- The bare-`Var` target-list membership used by the EXISTS check
(createas.c:1282-1295): exact `varno`/`varattno` match. -/
def exists_var_in_tlist (tl : List TargetEntry) (v : PVar) : Bool :=
  tl.any (fun tle =>
    match tle.expr with
    | .varE v2 a2 _ _ => v.varno = v2 ∧ v.varattno = a2
    | _ => false)

/-- The additional restriction checks for EXISTS subqueries
(createas.c:1272-1302): every upper-level variable collected inside an EXISTS
sublink must appear verbatim in the enclosing target list. -/
def check_exists_vars (vars : List PVar) (tl : List TargetEntry) :
    Except IvmErr Unit :=
  if vars.any (fun v => !exists_var_in_tlist tl v) then
    throw .existsTlistHint
  else pure ()

mutual

/-- The `T_Query` case of `check_ivm_restriction_walker` (createas.c:1136-
1369): scalar checks, `has_agg` update, range-table checks with subquery
descent, `query_tree_walker` with `QTW_IGNORE_RANGE_TABLE` (target list,
join tree, HAVING, LIMIT, CTE list), then the EXISTS and outer-join
post-checks at nesting level 0. -/
def walkQuery (cat : Catalog) (ctx : ChkCtx) : Query → Except IvmErr ChkCtx
  | .mk tl rt fl w h lo lc c cl f => do
      let q : Query := .mk tl rt fl w h lo lc c cl f
      check_scalar_restrictions ctx.sublevels_up q
      let ctx := { ctx with has_agg := ctx.has_agg || f.hasAggs }
      let ctx ← walkRtable cat ctx rt
      let ctx ← walkTleList cat ctx tl
      let ctx ← walkJtList cat ctx fl
      let ctx ← walkOptExpr cat ctx w
      let ctx ← walkOptExpr cat ctx h
      let ctx ← walkOptExpr cat ctx lo
      let ctx ← walkOptExpr cat ctx lc
      let ctx ← walkCteList cat ctx c
      if ctx.exists_qual_vars ≠ [] ∧ ctx.sublevels_up = 0 then
        check_exists_vars ctx.exists_qual_vars tl
      if ctx.has_outerjoin ∧ ctx.sublevels_up = 0 then
        check_outerjoin_quals cat ctx.join_quals q
      pure ctx

/-- The range-table loop of the `T_Query` case (createas.c:1213-1267). -/
def walkRtable (cat : Catalog) (ctx : ChkCtx) : List RTEntry → Except IvmErr ChkCtx
  | [] => pure ctx
  | .mk b sub jvars :: rs => do
      let _ := jvars
      check_rte_scalar cat b
      let ctx ←
        if b.rtekind = .subquery then do
          if ctx.has_outerjoin then throw IvmErr.subqueryWithOuterJoinHint
          let ctx := { ctx with has_subquery := true,
                                sublevels_up := ctx.sublevels_up + 1 }
          let ctx ←
            match sub with
            | some sq => walkQuery cat ctx sq
            | none => pure ctx
          pure { ctx with sublevels_up := ctx.sublevels_up - 1 }
        else pure ctx
      walkRtable cat ctx rs

/-- The walk over the target list: per entry, the `T_TargetEntry` case and
the descent into the entry's expression. -/
def walkTleList (cat : Catalog) (ctx : ChkCtx) : List TargetEntry → Except IvmErr ChkCtx
  | [] => pure ctx
  | .mk e n s j r :: ts => do
      check_target_entry ctx.has_agg (.mk e n s j r)
      let ctx ← walkExpr cat ctx e
      walkTleList cat ctx ts

/-- The `T_JoinExpr` case (createas.c:1404-1425) and the default descent of
`expression_tree_walker` through `FromExpr` and `RangeTblRef` nodes. -/
def walkJt (cat : Catalog) (ctx : ChkCtx) : JtNode → Except IvmErr ChkCtx
  | .rtref _ => pure ctx
  | .fromE fl q => do
      let ctx ← walkJtList cat ctx fl
      walkOptExpr cat ctx q
  | .joinE jt la ra q => do
      let ctx ←
        if jt.isOuter then do
          if ctx.has_subquery then throw IvmErr.subqueryWithOuterJoinHint
          if ctx.has_agg then throw IvmErr.aggWithOuterJoinHint
          let jq := match q with | some e => [e] | none => []
          pure { ctx with has_outerjoin := true, join_quals := ctx.join_quals ++ jq }
        else pure ctx
      let ctx ← walkJt cat ctx la
      let ctx ← walkJt cat ctx ra
      walkOptExpr cat ctx q

def walkJtList (cat : Catalog) (ctx : ChkCtx) : List JtNode → Except IvmErr ChkCtx
  | [] => pure ctx
  | n :: ns => do
      let ctx ← walkJt cat ctx n
      walkJtList cat ctx ns

/-- The expression cases of `check_ivm_restriction_walker`: `T_Var`
(createas.c:1426-1433), `T_SubLink` (1434-1460), `T_Aggref` (1461-1487,
which does not descend into its arguments), and the default
`expression_tree_walker` descent. -/
def walkExpr (cat : Catalog) (ctx : ChkCtx) : Expr → Except IvmErr ChkCtx
  | .varE v a t l =>
      if l > 0 ∧ ctx.in_exists_subquery then
        pure { ctx with exists_qual_vars := ctx.exists_qual_vars ++ [⟨v, a, l, t⟩] }
      else pure ctx
  | .constE _ _ => pure ctx
  | .opE _ _ args => walkExprList cat ctx args
  | .funcE _ _ _ _ args => walkExprList cat ctx args
  | .boolE _ args => walkExprList cat ctx args
  | .aggE fno _ _ _ _ hasFilter hasDistinct hasOrder => do
      if hasFilter then throw IvmErr.aggFilterErr
      if hasDistinct then throw IvmErr.aggDistinctArgsErr
      if hasOrder then throw IvmErr.aggOrderErr
      if ¬check_aggregate_supports_ivm fno then throw (IvmErr.aggNotSupportedErr fno)
      pure ctx
  | .subLinkE k sub => do
      if k ≠ .existsSublink then throw IvmErr.sublinkKindHint
      if ctx.sublevels_up > 0 then throw IvmErr.nestedSublinkErr
      if ctx.has_outerjoin then throw IvmErr.sublinkOuterJoinHint
      let ctx := { ctx with in_exists_subquery := true,
                            sublevels_up := ctx.sublevels_up + 1 }
      let ctx ← walkQuery cat ctx sub
      pure { ctx with in_exists_subquery := false,
                      sublevels_up := ctx.sublevels_up - 1 }

def walkExprList (cat : Catalog) (ctx : ChkCtx) : List Expr → Except IvmErr ChkCtx
  | [] => pure ctx
  | e :: es => do
      let ctx ← walkExpr cat ctx e
      walkExprList cat ctx es

def walkOptExpr (cat : Catalog) (ctx : ChkCtx) : Option Expr → Except IvmErr ChkCtx
  | none => pure ctx
  | some e => walkExpr cat ctx e

/-- The `T_CommonTableExpr` case (createas.c:1370-1383). -/
def walkCteList (cat : Catalog) (ctx : ChkCtx) : List Cte → Except IvmErr ChkCtx
  | [] => pure ctx
  | .mk nm cq :: cs => do
      if isIvmName nm then throw (IvmErr.cteNameErr nm)
      let ctx := { ctx with sublevels_up := ctx.sublevels_up + 1 }
      let ctx ← walkQuery cat ctx cq
      let ctx := { ctx with sublevels_up := ctx.sublevels_up - 1 }
      walkCteList cat ctx cs

end

/-- `check_ivm_restriction` (createas.c:1117-1123): run the walker on a fresh
context; acceptance is `.ok ()`. -/
def check_ivm_restriction (cat : Catalog) (q : Query) : Except IvmErr Unit := do
  let _ ← walkQuery cat ⟨false, false, false, false, [], [], 0⟩ q
  pure ()

/-! ### The query rewriter (`rewriteQueryForIMMV`, `makeIvmAggColumn`) -/

/-- `get_sortgroupclause_tle` (outside `src/`): the target entry whose
`ressortgroupref` equals the clause's `tleSortGroupRef`. -/
def get_sortgroupclause_tle (ref : Nat) (tl : List TargetEntry) : Option TargetEntry :=
  tl.find? (fun t => t.ressortgroupref = ref)

/-- The group-key validation of `rewriteQueryForIMMV` (createas.c:513-526):
each group clause must resolve to a non-junk target entry. -/
def check_group_keys (refs : List Nat) (tl : List TargetEntry) : Except IvmErr Unit :=
  match refs with
  | [] => pure ()
  | r :: rs => do
      match get_sortgroupclause_tle r tl with
      | none => throw IvmErr.sortGroupRefLookupErr
      | some t => if t.resjunk then throw IvmErr.groupByNotInTlistErr else pure ()
      check_group_keys rs tl

def maxSortGroupRef (tl : List TargetEntry) : Nat :=
  tl.foldl (fun m t => max m t.ressortgroupref) 0

def TargetEntry.withSortGroupRef : TargetEntry → Nat → TargetEntry
  | .mk e n s j _, r => .mk e n s j r

/-- Fresh sort-group references for all non-junk entries, returned together
with the group clause listing them in target-list order. -/
def assignRefs (next : Nat) : List TargetEntry → List TargetEntry × List Nat
  | [] => ([], [])
  | t :: ts =>
      if t.resjunk then
        let (ts', refs) := assignRefs next ts
        (t :: ts', refs)
      else
        let (ts', refs) := assignRefs (next + 1) ts
        (t.withSortGroupRef next :: ts', next :: refs)

/-- Modelled from the spec: `transformDistinctClause` (parser, outside
`src/`) as called at createas.c:529 — DISTINCT becomes a GROUP BY over all
(non-junk) target columns; sort-group references are assigned fresh, above
every existing reference. -/
def transformDistinctClause (tl : List TargetEntry) : List TargetEntry × List Nat :=
  assignRefs (maxSortGroupRef tl + 1) tl

/-- The generated EXISTS-count column name `__ivm_exists_count_<n>__`. -/
def existsCountName (n : Nat) : String :=
  "__ivm_exists_count_" ++ toString n ++ "__"

/-- Modelled from the spec: the body of the `n`-th EXISTS sublink turned into
a lateral subquery exposing a `count(*)` column named
`__ivm_exists_count_<n>__` and a HAVING qualifier checking the count. -/
def mkExistsLateralSub (n : Nat) : Query → Query
  | .mk tl rt fl w _ lo lc c cl f =>
      let cnt : TargetEntry :=
        .mk (.aggE F_COUNT_ INT8OID 0 [] [] false false false)
          (tl.length + 1) (existsCountName n) false 0
      let hv : Expr := .opE 0 BOOLOID [.varE 0 0 INT8OID 0, .constE INT8OID false]
      .mk (tl ++ [cnt]) rt fl w (some hv) lo lc c cl { f with hasAggs := true }

/-- The lateral-subquery range-table entry produced for the `n`-th EXISTS
sublink. -/
def mkExistsRte (n : Nat) (sub : Query) : RTEntry :=
  let sub' := mkExistsLateralSub n sub
  RTEntry.mk
    { rtekind := .subquery, relid := 0, relkind := .nokind, lateral := true,
      tablesample := false,
      colnames := (sub.targetList.map (fun t => t.resname)) ++ [existsCountName n],
      ctename := "" }
    (some sub') []

/-- Top-level AND-ed EXISTS sublinks of a qualifier list, split from the
remaining conjuncts. -/
def splitExistsList : List Expr → List Query × List Expr
  | [] => ([], [])
  | .subLinkE .existsSublink sub :: es =>
      let (qs, rs) := splitExistsList es
      (sub :: qs, rs)
  | e :: es =>
      let (qs, rs) := splitExistsList es
      (qs, e :: rs)

/-- Top-level EXISTS sublinks of the WHERE clause, split from the remaining
qualifier. -/
def splitExistsQuals : Option Expr → List Query × Option Expr
  | none => ([], none)
  | some (.subLinkE .existsSublink sub) => ([sub], none)
  | some (.boolE .andOp args) =>
      let (qs, rs) := splitExistsList args
      (qs, if rs.isEmpty then none else some (.boolE .andOp rs))
  | some e => ([], some e)

/-- Modelled from the spec: `rewrite_query_for_exists_subquery` (matview code
outside `src/`) — every top-level EXISTS sublink of the WHERE clause becomes
a lateral subquery appended to the range table and the from-list, projecting
a count column; the target list, group/distinct clauses and aggregate flag
of the outer query are not touched. -/
def rewrite_query_for_exists_subquery (q : Query) : Query :=
  let (subs, rem) := splitExistsQuals q.whereQuals
  let newRtes := subs.enum.map (fun p => mkExistsRte p.1 p.2)
  let newRefs := (List.range subs.length).map
    (fun i => JtNode.rtref (q.rtable.length + i + 1))
  ((q.withRtableFromWhere (q.rtable ++ newRtes) (q.fromlist ++ newRefs) rem).withHasSubLinks false)

/-- The counting-column loop of `rewriteQueryForIMMV` (createas.c:482-509):
walk the range table with a running `varno`; for every lateral subquery
entry exposing a `__ivm_exists` column, append a target entry referring to
it, at resno `length + 1`. -/
def addExistsCountColsGo (varno : Nat) (rts : List RTEntry) (tl : List TargetEntry) :
    List TargetEntry :=
  match rts with
  | [] => tl
  | rte :: rs =>
      let tl :=
        if rte.subquery.isSome ∧ rte.lateral then
          match getColumnNameStartWith rte "__ivm_exists" with
          | some (cname, attnum) =>
              tl ++ [TargetEntry.mk (.varE varno (Int.ofNat attnum) INT8OID 0)
                       (tl.length + 1) cname false 0]
          | none => tl
        else tl
      addExistsCountColsGo (varno + 1) rs tl

def addExistsCountCols (q : Query) : Query :=
  q.withTargetList (addExistsCountColsGo 1 q.rtable q.targetList)

/-- The `count(<args>)` companion aggregate built at createas.c:604-617: a
`count(any)` call parsed over a dummy `int4` argument whose argument list is
then overridden with the original aggregate's arguments. -/
def ivm_count_companion_expr (args : List Expr) : Expr :=
  .aggE F_COUNT_ANY INT8OID 0 [INT4OID] args false false false

/-- The `sum(<args>)` companion aggregate built at createas.c:619-650: a
`sum` call resolved over dummy arguments of the original aggregate's
argument types, whose argument list is then overridden. -/
def ivm_sum_companion_expr (argtys : List Oid) (args : List Expr) : Expr :=
  .aggE (resolve_sum_fnoid argtys) (resolve_sum_rettype argtys) 0 argtys args
    false false false

/-- `makeIvmAggColumn` (createas.c:581-651): for an aggregate other than
`count`, append a `count` companion named `__ivm_count_<resname>_`; for
`avg`, additionally append a `sum` companion named `__ivm_sum_<resname>_`;
each takes the next available resno. -/
def makeIvmAggColumn (fnoid : Oid) (argtys : List Oid) (args : List Expr)
    (resname : String) (next_resno : Nat) : List TargetEntry × Nat :=
  let aggname := get_func_name fnoid
  let (acc, r) :=
    if aggname ≠ "count" then
      ([TargetEntry.mk (ivm_count_companion_expr args) next_resno
          (makeObjectName "__ivm_count" resname "_") false 0], next_resno + 1)
    else ([], next_resno)
  if aggname = "avg" then
    (acc ++ [TargetEntry.mk (ivm_sum_companion_expr argtys args) r
        (makeObjectName "__ivm_sum" resname "_") false 0], r + 1)
  else (acc, r)

/-- One target entry's contribution in the aggregate-column loop of
`rewriteQueryForIMMV` (createas.c:532-547): a bare-`Aggref` entry produces
companion columns via `makeIvmAggColumn`; the display name comes from the
entry unless explicit column names were given. -/
def aggCompanions (colNames : List String) (tle : TargetEntry) (r : Nat) :
    List TargetEntry × Nat :=
  match tle.expr with
  | .aggE fno _ _ argtys args _ _ _ =>
      makeIvmAggColumn fno argtys args
        (if colNames = [] then tle.resname else colNames.getD (tle.resno - 1) "") r
  | _ => ([], r)

/-- The aggregate-column loop of `rewriteQueryForIMMV` (createas.c:532-547):
every target entry's companion columns are accumulated with the next
available resno threaded through. -/
def addAggColumns (colNames : List String) : List TargetEntry → Nat → List TargetEntry × Nat
  | [], r => ([], r)
  | tle :: ts, r =>
      let (here, r') := aggCompanions colNames tle r
      let (rest, r2) := addAggColumns colNames ts r'
      (here ++ rest, r2)

/-- The `count(*)` expression parsed at createas.c:552-555. -/
def countStarExpr : Expr := .aggE F_COUNT_ INT8OID 0 [] [] false false false

/-- The trailing `__ivm_count__` target entry (createas.c:557-560). -/
def ivmCountTle (resno : Nat) : TargetEntry :=
  .mk countStarExpr resno "__ivm_count__" false 0

/-- The EXISTS stage of `rewriteQueryForIMMV` (createas.c:468-510): when the
query has sublinks, rewrite them to lateral subqueries and expose their
count columns; otherwise the query is unchanged. -/
def rewriteInterm (q : Query) : Query :=
  if q.hasSubLinks then addExistsCountCols (rewrite_query_for_exists_subquery q)
  else q

/-- The group-key stage of `rewriteQueryForIMMV` (createas.c:512-529): with
a GROUP BY present, validate that every group key is a non-junk target
entry; otherwise, without aggregates but with DISTINCT, convert DISTINCT to
GROUP BY over all target columns. -/
def rewriteStageGroup (r : Query) : Except IvmErr Query :=
  if r.groupClause ≠ [] then do
    check_group_keys r.groupClause r.targetList
    pure r
  else if ¬r.hasAggs ∧ r.distinctClause ≠ [] then
    pure ((r.withTargetList (transformDistinctClause r.targetList).1).withGroupRefs
      (transformDistinctClause r.targetList).2)
  else pure r

/-- The aggregate-companion stage of `rewriteQueryForIMMV`
(createas.c:531-547). -/
def rewriteStageAggs (colNames : List String) (r : Query) : Query :=
  if r.hasAggs then
    r.withTargetList
      (r.targetList ++ (addAggColumns colNames r.targetList (r.targetList.length + 1)).1)
  else r

/-- The `count(*)` stage of `rewriteQueryForIMMV` (createas.c:549-563). -/
def rewriteStageCount (r : Query) : Query :=
  if r.distinctClause ≠ [] ∨ r.hasAggs then
    (r.withTargetList
      (r.targetList ++ [ivmCountTle (r.targetList.length + 1)])).withHasAggs true
  else r

/-- `rewriteQueryForIMMV` (createas.c:455-566): EXISTS sublinks become
lateral subqueries with exposed count columns; group keys must be non-junk
target entries; DISTINCT without aggregates becomes GROUP BY over all target
columns; bare aggregate entries get companion columns; finally, if the query
is distinct or aggregating, a trailing `count(*)` named `__ivm_count__` is
appended and `hasAggs` is set. -/
def rewriteQueryForIMMV (q : Query) (colNames : List String) : Except IvmErr Query := do
  let r ← rewriteStageGroup (rewriteInterm q)
  pure (rewriteStageCount (rewriteStageAggs colNames r))

/-! ### The trigger provisioner (`CreateIvmTriggersOnBaseTables`) -/

inductive TrigEvent | ins | del | upd
deriving DecidableEq, Repr

inductive TrigTiming | before | after
deriving DecidableEq, Repr

/-- The trigger descriptor handed to `CreateTrigger` by `CreateIvmTrigger`:
timing, event, trigger name, transition-table bindings (name, `isNew`),
maintenance function name, and the view OID / lock-mode flag passed as the
trigger's arguments. -/
structure TriggerDesc where
  relid : Oid
  viewOid : Oid
  event : TrigEvent
  timing : TrigTiming
  trigname : String
  transitions : List (String × Bool)
  funcname : String
  ex_lock : Bool
deriving DecidableEq, Repr

/-- `CreateIvmTrigger` (createas.c:1032-1112). -/
def CreateIvmTrigger (relOid viewOid : Oid) (event : TrigEvent)
    (timing : TrigTiming) (ex_lock : Bool) : TriggerDesc :=
  let trigname :=
    match event, timing with
    | .ins, .before => "IVM_trigger_ins_before"
    | .ins, .after => "IVM_trigger_ins_after"
    | .del, .before => "IVM_trigger_del_before"
    | .del, .after => "IVM_trigger_del_after"
    | .upd, .before => "IVM_trigger_upd_before"
    | .upd, .after => "IVM_trigger_upd_after"
  let transitions :=
    if timing = .after then
      (if event = .ins ∨ event = .upd then [("__ivm_newtable", true)] else [])
      ++ (if event = .del ∨ event = .upd then [("__ivm_oldtable", false)] else [])
    else []
  let funcname :=
    if timing = .before then "IVM_immediate_before" else "IVM_immediate_maintenance"
  ⟨relOid, viewOid, event, timing, trigname, transitions, funcname, ex_lock⟩

/-- The six triggers registered per base relation (createas.c:986-991), in
source order. -/
def sixIvmTriggers (relOid viewOid : Oid) (ex_lock : Bool) : List TriggerDesc :=
  [CreateIvmTrigger relOid viewOid .ins .before ex_lock,
   CreateIvmTrigger relOid viewOid .del .before ex_lock,
   CreateIvmTrigger relOid viewOid .upd .before ex_lock,
   CreateIvmTrigger relOid viewOid .ins .after ex_lock,
   CreateIvmTrigger relOid viewOid .del .after ex_lock,
   CreateIvmTrigger relOid viewOid .upd .after ex_lock]

mutual

/-- The `T_Query` case of `CreateIvmTriggersOnBaseTablesRecurse`
(createas.c:964-977): recurse into the join tree (whose `FromExpr` case only
walks the from-list) and then into every CTE body. -/
def trigQuery (mv : Oid) (ex : Bool) (visited : List Oid) :
    Query → List Oid × List TriggerDesc
  | .mk _ rt fl _ _ _ _ c _ _ =>
      let p1 := trigJtList rt mv ex visited fl
      let p2 := trigCteList mv ex p1.1 c
      (p2.1, p1.2 ++ p2.2)
termination_by q => sizeOf q
decreasing_by
  all_goals simp_wf
  all_goals omega

/-- The `T_RangeTblRef`, `T_FromExpr` and `T_JoinExpr` cases
(createas.c:979-1022): a not-yet-visited plain relation gets the six
triggers and is marked visited; a subquery entry is recursed into. -/
def trigJt (rt : List RTEntry) (mv : Oid) (ex : Bool) (visited : List Oid) :
    JtNode → List Oid × List TriggerDesc
  | .rtref rti =>
      match hg : rt.get? (rti - 1) with
      | some rte =>
          if rte.rtekind = .relation ∧ rte.relid ∉ visited then
            (rte.relid :: visited, sixIvmTriggers rte.relid mv ex)
          else if rte.rtekind = .subquery then
            match hs : rte.subquery with
            | some sq => trigQuery mv ex visited sq
            | none => (visited, [])
          else (visited, [])
      | none => (visited, [])
  | .fromE fl _ => trigJtList rt mv ex visited fl
  | .joinE _ la ra _ =>
      let p1 := trigJt rt mv ex visited la
      let p2 := trigJt rt mv ex p1.1 ra
      (p2.1, p1.2 ++ p2.2)
termination_by n => sizeOf rt + sizeOf n
decreasing_by
  all_goals simp_wf
  all_goals try omega
  · have hmem := List.get?_mem hg
    have hsz := List.sizeOf_lt_of_mem hmem
    cases rte with
    | mk b s j =>
      simp [RTEntry.subquery] at hs
      subst hs
      simp at hsz
      omega

def trigJtList (rt : List RTEntry) (mv : Oid) (ex : Bool) (visited : List Oid) :
    List JtNode → List Oid × List TriggerDesc
  | [] => (visited, [])
  | n :: ns =>
      let p1 := trigJt rt mv ex visited n
      let p2 := trigJtList rt mv ex p1.1 ns
      (p2.1, p1.2 ++ p2.2)
termination_by ns => sizeOf rt + sizeOf ns
decreasing_by
  all_goals simp_wf
  all_goals omega

def trigCteList (mv : Oid) (ex : Bool) (visited : List Oid) :
    List Cte → List Oid × List TriggerDesc
  | [] => (visited, [])
  | .mk _ cq :: cs =>
      let p1 := trigQuery mv ex visited cq
      let p2 := trigCteList mv ex p1.1 cs
      (p2.1, p1.2 ++ p2.2)
termination_by cs => sizeOf cs
decreasing_by
  all_goals simp_wf
  all_goals omega

end

/-- `ivm_first_rtindex`: the first range-table index holding a base table
(createas.c:922): 1 at creation, past the OLD/NEW entries otherwise. -/
def ivm_first_rtindex (is_create : Bool) : Nat :=
  if is_create then 1 else PRS2_NEW_VARNO + 1

/-- The lock-mode decision of `CreateIvmTriggersOnBaseTables`
(createas.c:942-945): exclusive unless the range table holds exactly one
entry from the starting index on and that entry is a plain relation. -/
def ivm_ex_lock (q : Query) (is_create : Bool) : Bool :=
  match q.rtable.get? (ivm_first_rtindex is_create - 1) with
  | some rte =>
      decide (q.rtable.length > ivm_first_rtindex is_create)
      || decide (rte.rtekind ≠ .relation)
  | none => true

/-- `CreateIvmTriggersOnBaseTables` (createas.c:917-950): early return
without any base table, otherwise recurse with the chosen lock mode. -/
def CreateIvmTriggersOnBaseTables (q : Query) (mv : Oid) (is_create : Bool) :
    List TriggerDesc :=
  if q.rtable.length < ivm_first_rtindex is_create then []
  else (trigQuery mv (ivm_ex_lock q is_create) [] q).2

mutual

/-- The base relations reachable by `CreateIvmTriggersOnBaseTablesRecurse`:
plain-relation range-table references of the join tree, plus those of CTE
bodies and of nested subquery entries. -/
def baseRelsQuery : Query → List Oid
  | .mk _ rt fl _ _ _ _ c _ _ => baseRelsJtList rt fl ++ baseRelsCteList c
termination_by q => sizeOf q
decreasing_by
  all_goals simp_wf
  all_goals omega

def baseRelsJt (rt : List RTEntry) : JtNode → List Oid
  | .rtref rti =>
      match hg : rt.get? (rti - 1) with
      | some rte =>
          if rte.rtekind = .relation then [rte.relid]
          else if rte.rtekind = .subquery then
            match hs : rte.subquery with
            | some sq => baseRelsQuery sq
            | none => []
          else []
      | none => []
  | .fromE fl _ => baseRelsJtList rt fl
  | .joinE _ la ra _ => baseRelsJt rt la ++ baseRelsJt rt ra
termination_by n => sizeOf rt + sizeOf n
decreasing_by
  all_goals simp_wf
  all_goals try omega
  · have hmem := List.get?_mem hg
    have hsz := List.sizeOf_lt_of_mem hmem
    cases rte with
    | mk b s j =>
      simp [RTEntry.subquery] at hs
      subst hs
      simp at hsz
      omega

def baseRelsJtList (rt : List RTEntry) : List JtNode → List Oid
  | [] => []
  | n :: ns => baseRelsJt rt n ++ baseRelsJtList rt ns
termination_by ns => sizeOf rt + sizeOf ns
decreasing_by
  all_goals simp_wf
  all_goals omega

def baseRelsCteList : List Cte → List Oid
  | [] => []
  | .mk _ cq :: cs => baseRelsQuery cq ++ baseRelsCteList cs
termination_by cs => sizeOf cs
decreasing_by
  all_goals simp_wf
  all_goals omega

end

/-! ### The primary-key propagation analyzer
(`get_primary_key_attnos_from_query`) -/

/-- `bms_add_member` on the embedded bitmapsets (ordered, duplicate-free
lists of offset attribute numbers). -/
def bmsAdd (s : List Int) (x : Int) : List Int := if x ∈ s then s else s ++ [x]

/-- `bms_del_member`. -/
def bmsDel (s : List Int) (x : Int) : List Int := s.filter (fun y => y ≠ x)

/-- CTE lookup by name, used to model `inline_cte`. -/
def lookupCte (cs : List Cte) (nm : String) : Option Cte :=
  cs.find? (fun c => c.ctename = nm)

/-- The target-list scan of `get_primary_key_attnos_from_query`
(createas.c:1902-1925): an alias-flattened bare `Var` entry whose attribute
is still in its relation's key set removes it there and adds its own
(offset) position to the result keys. -/
def gpkScanTl (q : Query) (tl : List TargetEntry) (kal : List (List Int))
    (i : Nat) (keys : List Int) : List (List Int) × List Int :=
  match tl with
  | [] => (kal, keys)
  | tle :: ts =>
      match flatten_join_alias_vars q tle.expr with
      | .varE v a _ _ =>
          let attnos := kal.getD (v - 1) []
          if (a - FirstLowInvalidHeapAttributeNumber) ∈ attnos then
            gpkScanTl q ts
              (kal.set (v - 1) (bmsDel attnos (a - FirstLowInvalidHeapAttributeNumber)))
              (i + 1)
              (bmsAdd keys ((i : Int) - FirstLowInvalidHeapAttributeNumber))
          else gpkScanTl q ts kal (i + 1) keys
      | _ => gpkScanTl q ts kal (i + 1) keys

/-- The final leftover check of `get_primary_key_attnos_from_query`
(createas.c:1935-1942): some relation of the FROM clause still holds an
unmatched key attribute. -/
def gpkLeftover (kal : List (List Int)) (i : Nat) (rels : List Nat) : Bool :=
  match kal with
  | [] => false
  | bms :: rest => (!bms.isEmpty && decide (i ∈ rels)) || gpkLeftover rest (i + 1) rels

mutual

/-- One range-table entry's contribution to the key-set list
(createas.c:1862-1899): subqueries are scanned recursively, relations
consult `get_primary_key_attnos` (appending their constraint OID), all
other entries contribute the empty set; the first component is `none` when
the whole query must fail (no usable primary key).  The conversion of CTEs
to subqueries performed by `inline_cte` (optimizer code outside `src/`) is
modelled from the spec by scanning the referenced CTE body in place of a
CTE entry. -/
def gpkStep (cat : Catalog) (ctes : List Cte) (first i : Nat) (rte : RTEntry)
    (acc : List Oid) : Option (Option (List Int)) × List Oid :=
  if first ≤ i then
    match rte.rtekind with
    | .subquery =>
        match hs : rte.subquery with
        | some sq =>
            match get_primary_key_attnos_from_query cat true sq acc with
            | (none, acc') => (none, acc')
            | (some ks, acc') => (some (some ks), acc')
        | none => (none, acc)
    | .cte =>
        match hc : lookupCte ctes rte.ctename with
        | some cte =>
            match get_primary_key_attnos_from_query cat true cte.ctequery acc with
            | (none, acc') => (none, acc')
            | (some ks, acc') => (some (some ks), acc')
        | none => (some (some []), acc)
    | .relation =>
        match cat.pkey_attnos rte.relid with
        | some ks => (some (some ks), acc ++ [cat.pkey_constraint rte.relid])
        | none => (none, acc ++ [cat.pkey_constraint rte.relid])
    | _ => (some (some []), acc)
  else (some (some []), acc)
termination_by sizeOf ctes + sizeOf rte
decreasing_by
  all_goals simp_wf
  · cases rte with
    | mk b s j =>
      simp [RTEntry.subquery] at hs
      subst hs
      simp
      omega
  · have hmem := List.mem_of_find?_eq_some hc
    have hsz := List.sizeOf_lt_of_mem hmem
    cases hc2 : cte with
    | mk nm cq =>
      subst hc2
      simp [Cte.ctequery]
      simp at hsz
      omega

def gpkRtable (cat : Catalog) (ctes : List Cte) (first : Nat) (i : Nat)
    (rts : List RTEntry) (acc : List Oid) : Option (List (List Int)) × List Oid :=
  match rts with
  | [] => (some [], acc)
  | rte :: rs =>
      match gpkStep cat ctes first i rte acc with
      | (none, acc') => (none, acc')
      | (some entry, acc') =>
          match gpkRtable cat ctes first (i + 1) rs acc' with
          | (none, acc2) => (none, acc2)
          | (some kal, acc2) => (some ((entry.getD []) :: kal), acc2)
termination_by sizeOf ctes + sizeOf rts
decreasing_by
  all_goals simp_wf
  all_goals omega

/-- `get_primary_key_attnos_from_query` (createas.c:1826-1945): build the
per-relation key sets, tick off key attributes projected as (alias-flattened)
bare column references, and fail to `none` whenever a relation in the FROM
clause retains an unprojected key attribute. -/
def get_primary_key_attnos_from_query (cat : Catalog) (is_create : Bool)
    (q : Query) (acc : List Oid) : Option (List Int) × List Oid :=
  match q with
  | .mk tl rt _ _ _ _ _ c _ _ =>
      match gpkRtable cat c (ivm_first_rtindex is_create) 1 rt acc with
      | (none, acc') => (none, acc')
      | (some kal, acc') =>
          let p := gpkScanTl q tl kal 1 []
          if gpkLeftover p.1 1 (rels_in_from q) then (none, acc')
          else (some p.2, acc')
termination_by sizeOf q
decreasing_by
  all_goals simp_wf
  all_goals omega

end

/-! ### The index provisioner (`CreateIndexOnIMMV`) -/

/-- The outcome of `CreateIndexOnIMMV`: a unique nulls-not-distinct index on
the given columns, a skip because a compatible index exists, or the
no-index notice. -/
inductive IndexOutcome where
  | createdIndex (params : List String)
  | compatibleSkip
  | noIndexNotice
deriving DecidableEq, Repr

/-- The matview attribute name for a target resno
(`TupleDescAttr(matviewRel->rd_att, tle->resno - 1)`), from the relation's
descriptor. -/
def indexColName (attnames : List String) (resno : Nat) : String :=
  attnames.getD (resno - 1) ""

/-- The GROUP BY branch of `CreateIndexOnIMMV` (createas.c:1675-1696): one
index column per group clause, resolved through `get_sortgroupclause_tle`. -/
def groupIndexParams (refs : List Nat) (tl : List TargetEntry)
    (attnames : List String) : Except IvmErr (List String) :=
  match refs with
  | [] => pure []
  | r :: rs => do
      match get_sortgroupclause_tle r tl with
      | none => throw IvmErr.sortGroupRefLookupErr
      | some tle => do
          let rest ← groupIndexParams rs tl attnames
          pure (indexColName attnames tle.resno :: rest)

/-- `CreateIndexOnIMMV` (createas.c:1627-1808): index on the GROUP BY
columns, else on all columns for DISTINCT, else on the propagated
primary-key positions; without propagated keys, emit the notice and create
nothing (before the compatible-index scan); otherwise skip if a structurally
compatible index exists, else create the unique nulls-not-distinct index. -/
def CreateIndexOnIMMV (cat : Catalog) (q : Query) (attnames : List String)
    (existing : List (List String)) (is_create : Bool) :
    Except IvmErr IndexOutcome := do
  let params ←
    if q.groupClause ≠ [] then do
      let ps ← groupIndexParams q.groupClause q.targetList attnames
      pure (some ps)
    else if q.distinctClause ≠ [] then
      pure (some (q.targetList.map (fun tle => indexColName attnames tle.resno)))
    else
      match get_primary_key_attnos_from_query cat is_create q [] with
      | (some keys, _) =>
          pure (some (q.targetList.filterMap (fun tle =>
            if ((tle.resno : Int) - FirstLowInvalidHeapAttributeNumber) ∈ keys then
              some (indexColName attnames tle.resno)
            else none)))
      | (none, _) => pure none
  match params with
  | none => pure IndexOutcome.noIndexNotice
  | some ps =>
      if existing.contains ps then pure IndexOutcome.compatibleSkip
      else pure (IndexOutcome.createdIndex ps)

/-! ### The `ExecCreateTableAs` orchestration for IMMV -/

/-- The observable side effects of the IMMV path of `ExecCreateTableAs`. -/
structure CtasActions where
  restrictionChecked : Bool
  rewrittenQuery : Option Query
  ivmStateSet : Bool
  indexOutcome : Option IndexOutcome
  triggers : List TriggerDesc

/-- The materialized-view branch of `ExecCreateTableAs` (createas.c:264-442)
for `into->ivm`: reject mutable functions, run the restriction check,
rewrite the query (keeping a copy `query_immv`), mark the relation's IVM
state, and — only when data is populated (`!skipData`) — provision the index
(on the original view query) and the triggers (on the rewritten query). -/
def ExecCreateImmv (cat : Catalog) (q : Query) (ivm skipData : Bool)
    (colNames attnames : List String) (existing : List (List String))
    (mv : Oid) : Except IvmErr CtasActions := do
  if ivm then do
    if contain_mutable_functions q then throw IvmErr.mutableFunctionErr
    check_ivm_restriction cat q
    let query_immv ← rewriteQueryForIMMV q colNames
    let idxOpt ←
      if ¬skipData then do
        let idx ← CreateIndexOnIMMV cat q attnames existing true
        pure (some idx)
      else pure none
    let trigs := if ¬skipData then CreateIvmTriggersOnBaseTables query_immv mv true else []
    pure { restrictionChecked := true, rewrittenQuery := some query_immv,
           ivmStateSet := true, indexOutcome := idxOpt, triggers := trigs }
  else
    pure { restrictionChecked := false, rewrittenQuery := none,
           ivmStateSet := false, indexOutcome := none, triggers := [] }

/-! ### Concrete fixtures for witnesses and counterexamples -/

/-- A concrete catalog: plain tables without inheritance, all operators
strict and join-compatible, no primary keys. -/
def catDemo : Catalog :=
  { has_superclass := fun _ => false
    has_inheritance_children := fun _ => false
    op_mergejoinable := fun _ _ => true
    mergeopfamilies_nonempty := fun _ => true
    op_hashjoinable := fun _ _ => true
    op_strict := fun _ => true
    pkey_attnos := fun _ => none
    pkey_constraint := fun _ => 0 }

/-- Like `catDemo` but relation 101 has a primary key on attribute 1. -/
def catPk : Catalog :=
  { catDemo with
    pkey_attnos := fun r =>
      if r = 101 then some [1 - FirstLowInvalidHeapAttributeNumber] else none
    pkey_constraint := fun _ => 77 }

def flagsNone : QFlags := ⟨false, false, false, false, false, false, false, false⟩

/-- A plain-relation range-table entry with columns `a`, `b`. -/
def relRte (relid : Oid) : RTEntry :=
  .mk { rtekind := .relation, relid := relid, relkind := .ordinary,
        lateral := false, tablesample := false, colnames := ["a", "b"],
        ctename := "" } none []

def tleA : TargetEntry := .mk (.varE 1 1 INT4OID 0) 1 "a" false 1
def tleB : TargetEntry := .mk (.varE 1 2 INT4OID 0) 2 "b" false 2

/-- `SELECT DISTINCT a FROM t` (relation 101). -/
def q1 : Query :=
  .mk [tleA] [relRte 101] [.rtref 1] none none none none []
    ⟨[], [1], []⟩ flagsNone

/-- `SELECT a FROM t` (relation 101). -/
def q2 : Query :=
  .mk [tleA] [relRte 101] [.rtref 1] none none none none []
    ⟨[], [], []⟩ flagsNone

/-- `SELECT DISTINCT a, b FROM t GROUP BY a` (valid when `a` is a key):
DISTINCT together with its own GROUP BY that does not list `b`. -/
def c2cex : Query :=
  .mk [tleA, tleB] [relRte 101] [.rtref 1] none none none none []
    ⟨[1], [1, 2], []⟩ flagsNone

/-- `SELECT avg(b) AS x FROM t`. -/
def c3q : Query :=
  .mk [.mk (.aggE F_AVG_INT4 NUMERICOID 0 [INT4OID] [.varE 1 2 INT4OID 0]
              false false false) 1 "x" false 0]
    [relRte 101] [.rtref 1] none none none none []
    ⟨[], [], []⟩ { flagsNone with hasAggs := true }

/-- The rewriter's output on `q1` (the C1 counterexample input). -/
def c1out : Query :=
  match rewriteQueryForIMMV q1 [] with
  | .ok r => r
  | .error _ => q1

/-- The rewriter's output on `c2cex`. -/
def c2out : Query :=
  match rewriteQueryForIMMV c2cex [] with
  | .ok r => r
  | .error _ => c2cex

/-- The rewriter's output on `c3q`. -/
def c3out : Query :=
  match rewriteQueryForIMMV c3q [] with
  | .ok r => r
  | .error _ => c3q

/-! ### Claim-support definitions -/

/-- The group clause covers the column `(resno, resname)`: some group
reference resolves, through `get_sortgroupclause_tle`, to a target entry
with that position and name. -/
def group_ref_matches (r : Nat) (tl : List TargetEntry) (n : Nat) (s : String) : Bool :=
  match get_sortgroupclause_tle r tl with
  | some t => t.resno = n && t.resname = s
  | none => false

/-- The resno stored at a position of a target list (0 when out of range). -/
def tleResnoAt (tl : List TargetEntry) (i : Nat) : Nat :=
  ((tl.get? i).map TargetEntry.resno).getD 0

/-- Target-list resnos form the contiguous 1-based sequence required by the
query-tree invariant. -/
def resnosContiguous (tl : List TargetEntry) : Prop :=
  ∀ i, i < tl.length → tleResnoAt tl i = i + 1

/-- The claim-relevant shape of one provisioned trigger: the view OID it
receives, its maintenance function by timing, and its transition-table
bindings by timing and event. -/
def trigger_shape (mv : Oid) (t : TriggerDesc) : Prop :=
  t.viewOid = mv
  ∧ (t.timing = .before →
       t.funcname = "IVM_immediate_before" ∧ t.transitions = [])
  ∧ (t.timing = .after →
       t.funcname = "IVM_immediate_maintenance"
       ∧ t.transitions =
           (if t.event = .ins then [("__ivm_newtable", true)]
            else if t.event = .del then [("__ivm_oldtable", false)]
            else [("__ivm_newtable", true), ("__ivm_oldtable", false)]))

/-! ## Claim theorems -/

theorem except_throw {α : Type} (e : IvmErr) :
    (throw e : Except IvmErr α) = .error e := rfl

theorem except_error_bind {α β : Type} (e : IvmErr) (f : α → Except IvmErr β) :
    ((Except.error e : Except IvmErr α) >>= f) = .error e := rfl

theorem except_ok_bind {α β : Type} (a : α) (f : α → Except IvmErr β) :
    ((Except.ok a : Except IvmErr α) >>= f) = f a := rfl

theorem except_pure {α : Type} (a : α) : (pure a : Except IvmErr α) = .ok a := rfl

/-! Accessor lemmas for the functional record updates on `Query`. -/

theorem withTargetList_targetList (q : Query) (tl : List TargetEntry) :
    (q.withTargetList tl).targetList = tl := by cases q; rfl
theorem withTargetList_groupClause (q : Query) (tl : List TargetEntry) :
    (q.withTargetList tl).groupClause = q.groupClause := by cases q; rfl
theorem withTargetList_distinctClause (q : Query) (tl : List TargetEntry) :
    (q.withTargetList tl).distinctClause = q.distinctClause := by cases q; rfl
theorem withTargetList_hasAggs (q : Query) (tl : List TargetEntry) :
    (q.withTargetList tl).hasAggs = q.hasAggs := by cases q; rfl
theorem withGroupRefs_groupClause (q : Query) (g : List Nat) :
    (q.withGroupRefs g).groupClause = g := by cases q; rfl
theorem withGroupRefs_targetList (q : Query) (g : List Nat) :
    (q.withGroupRefs g).targetList = q.targetList := by cases q; rfl
theorem withGroupRefs_distinctClause (q : Query) (g : List Nat) :
    (q.withGroupRefs g).distinctClause = q.distinctClause := by cases q; rfl
theorem withGroupRefs_hasAggs (q : Query) (g : List Nat) :
    (q.withGroupRefs g).hasAggs = q.hasAggs := by cases q; rfl
theorem withHasAggs_hasAggs (q : Query) (b : Bool) :
    (q.withHasAggs b).hasAggs = b := by cases q; rfl
theorem withHasAggs_targetList (q : Query) (b : Bool) :
    (q.withHasAggs b).targetList = q.targetList := by cases q; rfl
theorem withHasAggs_groupClause (q : Query) (b : Bool) :
    (q.withHasAggs b).groupClause = q.groupClause := by cases q; rfl
theorem withHasAggs_distinctClause (q : Query) (b : Bool) :
    (q.withHasAggs b).distinctClause = q.distinctClause := by cases q; rfl

theorem withSortGroupRef_resno (t : TargetEntry) (r : Nat) :
    (t.withSortGroupRef r).resno = t.resno := by cases t; rfl
theorem withSortGroupRef_resname (t : TargetEntry) (r : Nat) :
    (t.withSortGroupRef r).resname = t.resname := by cases t; rfl
theorem withSortGroupRef_ressortgroupref (t : TargetEntry) (r : Nat) :
    (t.withSortGroupRef r).ressortgroupref = r := by cases t; rfl

/-- C10: for every target-list entry whose expression is a SubLink — of any
sublink type, including EXISTS — the `T_TargetEntry` case of the restriction
check fails with the hint that subquery is not supported in the target list
(the two preceding checks of the same case, on reserved column names and on
expressions wrapping aggregates, are assumed not to fire first); sublinks
are thus only ever acceptable in the WHERE clause. -/
theorem C10_tlist_sublink_rejected (has_agg : Bool) (tle : TargetEntry)
    (k : SubLinkKind) (sub : Query)
    (hexpr : tle.expr = Expr.subLinkE k sub)
    (hname : isIvmName tle.resname = false)
    (hagg : (has_agg && exprHasAggsOfLevel 0 tle.expr) = false) :
    check_target_entry has_agg tle = .error IvmErr.tlistSublinkHint := by
  cases tle with
  | mk e n s j r =>
    simp only [TargetEntry.expr] at hexpr hagg
    subst hexpr
    simp only [TargetEntry.resname] at hname
    cases hA : has_agg <;>
      simp_all [check_target_entry, TargetEntry.resname, TargetEntry.expr,
        Expr.isAggref, Expr.isSubLinkNode, except_throw, except_error_bind,
        except_ok_bind, except_pure]

/-- Closed witness for C10 at a non-EXISTS sublink in the target list. -/
def c10tle : TargetEntry := .mk (.subLinkE .anySublink q2) 1 "s" false 0

theorem C10_witness :
    c10tle.expr = Expr.subLinkE .anySublink q2
    ∧ isIvmName c10tle.resname = false
    ∧ (false && exprHasAggsOfLevel 0 c10tle.expr) = false
    ∧ check_target_entry false c10tle = .error IvmErr.tlistSublinkHint :=
  ⟨rfl, rfl, rfl, C10_tlist_sublink_rejected false c10tle .anySublink q2 rfl rfl rfl⟩

/-- C8: with every earlier per-level scalar restriction passing, the
presence of a DISTINCT clause (or, failing that, of aggregates) at subquery
nesting depth greater than zero — a FROM-clause subquery, a CTE body or an
EXISTS sublink body, the three sites where the walker increments
`sublevels_up` — fails the per-level checks with the corresponding
nested-query diagnostic, while at depth zero the same per-level checks
accept regardless of DISTINCT or aggregates. -/
theorem C8_nested_distinct_agg (q : Query) (sublevels_up : Nat)
    (h1 : q.havingQual = none) (h2 : q.sortClause = [])
    (h3 : q.limitOffset = none) (h4 : q.limitCount = none)
    (h5 : q.hasDistinctOn = false) (h6 : q.hasWindowFuncs = false)
    (h7 : q.hasGroupingSets = false) (h8 : q.hasSetOperations = false)
    (h9 : q.targetList.length ≠ 0) (h10 : q.hasRowMarks = false)
    (h11 : q.hasRecursive = false)
    (h12 : (queryVarsAtLevel 0 q).any (fun v => v.varattno < 0) = false) :
    (0 < sublevels_up → q.distinctClause ≠ [] →
        check_scalar_restrictions sublevels_up q = .error IvmErr.nestedDistinctErr)
    ∧ (0 < sublevels_up → q.distinctClause = [] → q.hasAggs = true →
        check_scalar_restrictions sublevels_up q = .error IvmErr.nestedAggErr)
    ∧ (sublevels_up = 0 →
        check_scalar_restrictions sublevels_up q = .ok ()) := by
  refine ⟨?_, ?_, ?_⟩
  · intro hs hd
    simp [check_scalar_restrictions, h1, h2, h3, h4, h5, h6, h7, h8, h9, h10,
      h11, h12, hs, hd, except_throw, except_error_bind, except_ok_bind,
      except_pure]
  · intro hs hd ha
    simp [check_scalar_restrictions, h1, h2, h3, h4, h5, h6, h7, h8, h9, h10,
      h11, h12, hs, hd, ha, except_throw, except_error_bind, except_ok_bind,
      except_pure]
  · intro hs
    subst hs
    simp [check_scalar_restrictions, h1, h2, h3, h4, h5, h6, h7, h8, h9, h10,
      h11, h12, except_throw, except_error_bind, except_ok_bind, except_pure]

theorem C8_witness :
    q1.havingQual = none ∧ q1.sortClause = [] ∧ q1.limitOffset = none
    ∧ q1.limitCount = none ∧ q1.hasDistinctOn = false
    ∧ q1.hasWindowFuncs = false ∧ q1.hasGroupingSets = false
    ∧ q1.hasSetOperations = false ∧ q1.targetList.length ≠ 0
    ∧ q1.hasRowMarks = false ∧ q1.hasRecursive = false
    ∧ (queryVarsAtLevel 0 q1).any (fun v => v.varattno < 0) = false
    ∧ ((0 < 1 → q1.distinctClause ≠ [] →
          check_scalar_restrictions 1 q1 = .error IvmErr.nestedDistinctErr)
       ∧ (0 < 1 → q1.distinctClause = [] → q1.hasAggs = true →
          check_scalar_restrictions 1 q1 = .error IvmErr.nestedAggErr)
       ∧ (1 = 0 → check_scalar_restrictions 1 q1 = .ok ())) :=
  ⟨rfl, rfl, rfl, rfl, rfl, rfl, rfl, rfl, by decide, rfl, rfl, rfl,
    C8_nested_distinct_agg q1 1 rfl rfl rfl rfl rfl rfl rfl rfl (by decide)
      rfl rfl rfl⟩

/-- C7: for the outer-join post-checks run at nesting level 0 on a query
with an outer join, assuming the earlier equijoin and join-variable checks
of the same block pass, the check fails with the diagnostic hinting that
WHERE cannot contain non null-rejecting predicates with outer join exactly
when some variable of the alias-flattened WHERE clause is outside the
non-nullable variable set derived from the WHERE qualifiers; when every
WHERE variable is in that set, this particular check passes. -/
theorem C7_outerjoin_where_nonnullable (cat : Catalog) (join_quals : List Expr)
    (q : Query)
    (heq : ∀ jq ∈ join_quals, is_equijoin_condition cat jq = true)
    (htl : ∀ v ∈ oj_qual_vars q join_quals,
        q.targetList.any (fun tle => tle_flat_var_match q tle v) = true) :
    (check_outerjoin_quals cat join_quals q = .error IvmErr.whereNonNullableHint
      ↔ ∃ v ∈ oj_where_vars q, v ∉ find_nonnullable_vars cat q.whereQuals) := by
  unfold check_outerjoin_quals
  have hc1 : (join_quals.any fun jq => !is_equijoin_condition cat jq) = false := by
    simp only [List.any_eq_false, Bool.not_eq_true']
    intro jq hjq
    simp [heq jq hjq]
  have hc2 : ((oj_qual_vars q join_quals).any
      (fun v => !q.targetList.any (fun tle => tle_flat_var_match q tle v))) = false := by
    simp only [List.any_eq_false, Bool.not_eq_true']
    intro v hv
    have h := htl v hv
    rw [List.any_eq_true] at h
    intro hall
    rcases h with ⟨x, hx, hpx⟩
    exact hall x hx hpx
  simp only [hc1, hc2, Bool.false_eq_true, if_false]
  by_cases hdiff : 0 < (list_difference (oj_where_vars q)
      (find_nonnullable_vars cat q.whereQuals)).length
  · simp only [hdiff, if_true]
    constructor
    · intro _
      rcases List.exists_mem_of_length_pos hdiff with ⟨v, hv⟩
      simp only [list_difference, List.mem_filter, decide_eq_true_eq] at hv
      exact ⟨v, hv.1, hv.2⟩
    · intro _
      rfl
  · simp only [hdiff, if_false]
    constructor
    · intro hcontra
      by_cases hns : contain_nonstrict_functions cat q.targetList = true <;>
        simp [hns, except_throw, except_pure, except_ok_bind,
          except_error_bind] at hcontra
    · intro hex
      exfalso
      apply hdiff
      rcases hex with ⟨v, hv, hnv⟩
      have : v ∈ list_difference (oj_where_vars q)
          (find_nonnullable_vars cat q.whereQuals) := by
        simp [list_difference, hv, hnv]
      exact List.length_pos.mpr (List.ne_nil_of_mem this)

/-- A query with an outer-join-incompatible WHERE clause: `SELECT a FROM t
WHERE (b > 5 OR …)` — the OR wrapper keeps `b` out of the non-nullable set. -/
def q3 : Query :=
  .mk [tleA] [relRte 101] [.rtref 1]
    (some (.boolE .orOp [.opE 5 BOOLOID [.varE 1 2 INT4OID 0, .constE INT4OID false]]))
    none none none [] ⟨[], [], []⟩ flagsNone

theorem C7_witness :
    (∀ jq ∈ ([] : List Expr), is_equijoin_condition catDemo jq = true)
    ∧ (∀ v ∈ oj_qual_vars q3 [],
        q3.targetList.any (fun tle => tle_flat_var_match q3 tle v) = true)
    ∧ (check_outerjoin_quals catDemo [] q3 = .error IvmErr.whereNonNullableHint
        ↔ ∃ v ∈ oj_where_vars q3, v ∉ find_nonnullable_vars catDemo q3.whereQuals) :=
  ⟨by simp, by simp [oj_qual_vars], C7_outerjoin_where_nonnullable catDemo [] q3
    (by simp) (by simp [oj_qual_vars])⟩

/-- C9: for a `CREATE INCREMENTAL MATERIALIZED VIEW … WITH NO DATA`
(`ivm = true`, `skipData = true`), a successful `ExecCreateTableAs` run has
performed the restriction check and the IMMV rewrite and marked the
relation's IVM state, but has provisioned neither the automatic index nor
any trigger. -/
theorem C9_skipdata_no_provisioning (cat : Catalog) (q : Query)
    (colNames attnames : List String) (existing : List (List String))
    (mv : Oid) (acts : CtasActions)
    (hok : ExecCreateImmv cat q true true colNames attnames existing mv = .ok acts) :
    acts.restrictionChecked = true
    ∧ (∃ qr, acts.rewrittenQuery = some qr ∧ rewriteQueryForIMMV q colNames = .ok qr)
    ∧ acts.ivmStateSet = true
    ∧ acts.indexOutcome = none
    ∧ acts.triggers = [] := by
  unfold ExecCreateImmv at hok
  simp only [if_true, reduceIte] at hok
  cases hm : contain_mutable_functions q with
  | true => rw [hm] at hok; simp [except_throw, except_error_bind] at hok
  | false =>
    rw [hm] at hok
    simp only [Bool.false_eq_true, if_false] at hok
    cases hc : check_ivm_restriction cat q with
    | error e => rw [hc] at hok; simp [except_error_bind] at hok
    | ok u =>
      rw [hc] at hok
      cases u
      rw [except_ok_bind] at hok
      cases hr : rewriteQueryForIMMV q colNames with
      | error e => rw [hr] at hok; simp [except_error_bind] at hok
      | ok qr =>
        rw [hr] at hok
        rw [except_ok_bind] at hok
        simp only [not_true, reduceIte, except_ok_bind, except_pure,
          Except.ok.injEq] at hok
        subst hok
        exact ⟨rfl, ⟨qr, rfl, rfl⟩, rfl, rfl, rfl⟩

theorem C9_witness :
    ExecCreateImmv catDemo q2 true true [] ["a"] [] 900 =
      .ok { restrictionChecked := true, rewrittenQuery := some q2,
            ivmStateSet := true, indexOutcome := none, triggers := [] }
    ∧ ((({ restrictionChecked := true, rewrittenQuery := some q2,
            ivmStateSet := true, indexOutcome := none,
            triggers := [] } : CtasActions).restrictionChecked = true)
        ∧ (∃ qr, (some q2 : Option Query) = some qr
            ∧ rewriteQueryForIMMV q2 [] = .ok qr)
        ∧ True ∧ (none : Option IndexOutcome) = none
        ∧ ([] : List TriggerDesc) = []) := by
  refine ⟨rfl, ?_⟩
  have h := C9_skipdata_no_provisioning catDemo q2 [] ["a"] [] 900 _ rfl
  exact ⟨h.1, h.2.1, trivial, rfl, rfl⟩

/-- C1 (amended): the restriction checker accepts the rewriter's output for
every accepted query that the rewriter leaves unchanged — no sublinks, no
DISTINCT clause and no aggregates, the three triggers for bookkeeping
columns; for such queries a successful rewrite returns the query itself.
(As the counterexample shows, any query for which the rewrite adds a
`__ivm_…` bookkeeping column is rejected by the checker's reserved-name
restriction on the second run.) -/
theorem C1_closure_on_unchanged (cat : Catalog) (q : Query)
    (colNames : List String) (q' : Query)
    (hacc : check_ivm_restriction cat q = .ok ())
    (hsl : q.hasSubLinks = false)
    (hd : q.distinctClause = [])
    (ha : q.hasAggs = false)
    (hrw : rewriteQueryForIMMV q colNames = .ok q') :
    q' = q ∧ check_ivm_restriction cat q' = .ok () := by
  have hq : q' = q := by
    have him : rewriteInterm q = q := by
      unfold rewriteInterm
      rw [hsl]
      simp
    unfold rewriteQueryForIMMV at hrw
    rw [him] at hrw
    cases hst : rewriteStageGroup q with
    | error e => rw [hst] at hrw; simp [except_error_bind] at hrw
    | ok r =>
      rw [hst, except_ok_bind, except_pure] at hrw
      have hr : r = q := by
        unfold rewriteStageGroup at hst
        by_cases hgq : q.groupClause = []
        · simp [hgq, hd, ha, except_pure] at hst
          exact hst.symm
        · rw [if_pos (by simpa using hgq)] at hst
          cases hck : check_group_keys q.groupClause q.targetList with
          | error e => rw [hck] at hst; simp [except_error_bind] at hst
          | ok u =>
            cases u
            rw [hck, except_ok_bind, except_pure] at hst
            cases hst
            rfl
      rw [hr] at hrw
      have haggs : rewriteStageAggs colNames q = q := by
        unfold rewriteStageAggs
        rw [ha]
        simp
      have hcount : rewriteStageCount q = q := by
        unfold rewriteStageCount
        rw [hd, ha]
        simp
      rw [haggs, hcount] at hrw
      cases hrw
      rfl
  exact ⟨hq, hq ▸ hacc⟩

/-- C1 counterexample: the claim as stated fails on `SELECT DISTINCT a FROM
t` — the checker accepts it, the rewrite succeeds, and re-running the
checker on the rewritten query fails on the reserved name of the appended
`__ivm_count__` bookkeeping column. -/
theorem C1_counterexample :
    check_ivm_restriction catDemo q1 = .ok ()
    ∧ rewriteQueryForIMMV q1 [] = .ok c1out
    ∧ check_ivm_restriction catDemo c1out
        = .error (IvmErr.columnNameErr "__ivm_count__") :=
  ⟨rfl, rfl, rfl⟩

theorem C1_witness :
    check_ivm_restriction catDemo q2 = .ok ()
    ∧ q2.hasSubLinks = false ∧ q2.distinctClause = [] ∧ q2.hasAggs = false
    ∧ rewriteQueryForIMMV q2 [] = .ok q2
    ∧ (q2 = q2 ∧ check_ivm_restriction catDemo q2 = .ok ()) :=
  ⟨rfl, rfl, rfl, rfl, rfl,
    C1_closure_on_unchanged catDemo q2 [] q2 rfl rfl rfl rfl rfl⟩

/-! Lemmas about the DISTINCT-to-GROUP-BY conversion. -/

theorem maxSortGroupRef_aux (tl : List TargetEntry) :
    ∀ init : Nat,
      init ≤ tl.foldl (fun m t => max m t.ressortgroupref) init
      ∧ ∀ t ∈ tl, t.ressortgroupref ≤ tl.foldl (fun m t => max m t.ressortgroupref) init := by
  induction tl with
  | nil => intro init; simp
  | cons x xs ih =>
    intro init
    have h1 := (ih (max init x.ressortgroupref)).1
    have h2 := (ih (max init x.ressortgroupref)).2
    constructor
    · exact le_trans (le_max_left _ _) h1
    · intro t ht
      rcases List.mem_cons.mp ht with h | h
      · subst h
        exact le_trans (le_max_right _ _) h1
      · exact h2 t h

theorem le_maxSortGroupRef (tl : List TargetEntry) (t : TargetEntry)
    (ht : t ∈ tl) : t.ressortgroupref ≤ maxSortGroupRef tl :=
  (maxSortGroupRef_aux tl 0).2 t ht

theorem assignRefs_refs_ge (tl : List TargetEntry) :
    ∀ next : Nat, ∀ r ∈ (assignRefs next tl).2, next ≤ r := by
  induction tl with
  | nil => intro next r hr; simp [assignRefs] at hr
  | cons t ts ih =>
    intro next r hr
    by_cases hj : t.resjunk = true
    · simp only [assignRefs, hj, if_true, reduceIte] at hr
      exact ih next r hr
    · simp only [assignRefs, hj, Bool.false_eq_true, if_false, reduceIte,
        List.mem_cons] at hr
      rcases hr with h | h
      · omega
      · have := ih (next + 1) r h
        omega

theorem assignRefs_covers (tl : List TargetEntry) :
    ∀ next : Nat, (∀ t ∈ tl, t.ressortgroupref < next) →
    ∀ tle ∈ tl, tle.resjunk = false →
      ∃ r ∈ (assignRefs next tl).2,
        get_sortgroupclause_tle r (assignRefs next tl).1
          = some (tle.withSortGroupRef r) := by
  induction tl with
  | nil => intro next _ tle htle; simp at htle
  | cons t ts ih =>
    intro next hfresh tle htle hjunk
    rcases List.mem_cons.mp htle with rfl | hmem
    · refine ⟨next, ?_, ?_⟩
      · simp [assignRefs, hjunk]
      · have hpos : ((tle.withSortGroupRef next).ressortgroupref = next) := by
          simp [withSortGroupRef_ressortgroupref]
        simp only [assignRefs, hjunk, Bool.false_eq_true, if_false, reduceIte]
        simp [get_sortgroupclause_tle, List.find?_cons_of_pos, hpos]
    · have hfresh' : ∀ x ∈ ts, x.ressortgroupref < next := fun x hx =>
        hfresh x (List.mem_cons_of_mem _ hx)
      by_cases hj : t.resjunk = true
      · rcases ih next hfresh' tle hmem hjunk with ⟨r, hr, hfind⟩
        have hge := assignRefs_refs_ge ts next r hr
        have hne : ¬(t.ressortgroupref = r) := by
          have := hfresh t (List.mem_cons_self _ _)
          omega
        refine ⟨r, ?_, ?_⟩
        · simp only [assignRefs, hj, if_true, reduceIte]
          exact hr
        · simp only [assignRefs, hj, if_true, reduceIte,
            get_sortgroupclause_tle] at hfind ⊢
          rw [List.find?_cons_of_neg _ (by simpa using hne)]
          exact hfind
      · have hfresh'' : ∀ x ∈ ts, x.ressortgroupref < next + 1 := fun x hx =>
          Nat.lt_succ_of_lt (hfresh' x hx)
        rcases ih (next + 1) hfresh'' tle hmem hjunk with ⟨r, hr, hfind⟩
        have hge := assignRefs_refs_ge ts (next + 1) r hr
        refine ⟨r, ?_, ?_⟩
        · simp only [assignRefs, hj, Bool.false_eq_true, if_false, reduceIte,
            List.mem_cons]
          right
          exact hr
        · have hne : ¬((t.withSortGroupRef next).ressortgroupref = r) := by
            rw [withSortGroupRef_ressortgroupref]
            omega
          simp only [assignRefs, hj, Bool.false_eq_true, if_false, reduceIte,
            get_sortgroupclause_tle] at hfind ⊢
          rw [List.find?_cons_of_neg _ (by simpa using hne)]
          exact hfind

theorem get_sortgroupclause_tle_append (r : Nat) (l1 l2 : List TargetEntry)
    (t : TargetEntry) (h : get_sortgroupclause_tle r l1 = some t) :
    get_sortgroupclause_tle r (l1 ++ l2) = some t := by
  unfold get_sortgroupclause_tle at h ⊢
  rw [List.find?_append, h]
  rfl

/-! Lemmas about the EXISTS stage of the rewriter. -/

theorem addExistsCountColsGo_append (rts : List RTEntry) :
    ∀ (v : Nat) (tl : List TargetEntry),
      ∃ ec, addExistsCountColsGo v rts tl = tl ++ ec := by
  induction rts with
  | nil =>
    intro v tl
    exact ⟨[], by simp [addExistsCountColsGo]⟩
  | cons r rs ih =>
    intro v tl
    have hstep : ∃ e0,
        (if r.subquery.isSome ∧ r.lateral then
          match getColumnNameStartWith r "__ivm_exists" with
          | some (cname, attnum) =>
              tl ++ [TargetEntry.mk (.varE v (Int.ofNat attnum) INT8OID 0)
                       (tl.length + 1) cname false 0]
          | none => tl
        else tl) = tl ++ e0 := by
      split
      · split
        · exact ⟨_, rfl⟩
        · exact ⟨[], by simp⟩
      · exact ⟨[], by simp⟩
    rcases hstep with ⟨e0, he0⟩
    rcases ih (v + 1) (tl ++ e0) with ⟨ec, hec⟩
    refine ⟨e0 ++ ec, ?_⟩
    show addExistsCountColsGo v (r :: rs) tl = tl ++ (e0 ++ ec)
    unfold addExistsCountColsGo
    rw [he0, hec, List.append_assoc]

theorem rewriteInterm_props (q : Query) :
    (∃ ec, (rewriteInterm q).targetList = q.targetList ++ ec)
    ∧ (rewriteInterm q).groupClause = q.groupClause
    ∧ (rewriteInterm q).distinctClause = q.distinctClause
    ∧ (rewriteInterm q).hasAggs = q.hasAggs := by
  unfold rewriteInterm
  by_cases h : q.hasSubLinks = true
  · rw [if_pos h]
    cases q with
    | mk tl rt fl w hv lo lc c cl f =>
      simp only [rewrite_query_for_exists_subquery, Query.withRtableFromWhere,
        Query.withHasSubLinks, addExistsCountCols, Query.withTargetList,
        Query.targetList, Query.rtable, Query.fromlist, Query.whereQuals,
        Query.groupClause, Query.distinctClause, Query.hasAggs, Query.clauses,
        Query.flags]
      refine ⟨addExistsCountColsGo_append _ 1 tl, ?_, ?_, ?_⟩ <;>
        first
        | rfl
        | trivial
  · rw [if_neg h]
    exact ⟨⟨[], by simp⟩, rfl, rfl, rfl⟩

/-- C2 (amended): for every query with a DISTINCT clause, no aggregates and
no GROUP BY clause of its own, a successful rewrite yields a query with
`hasAggs = true`, a GROUP BY clause covering every (non-junk) original
target-list column, and a trailing `count(*)` entry named `__ivm_count__`
whose resno is the previous target-list length plus one (i.e. the final
length).  (As the counterexample shows, a query carrying both DISTINCT and
its own GROUP BY keeps that GROUP BY, which need not cover all columns.) -/
theorem C2_distinct_becomes_group (q : Query) (colNames : List String)
    (q' : Query)
    (hd : q.distinctClause ≠ [])
    (ha : q.hasAggs = false)
    (hg : q.groupClause = [])
    (hrw : rewriteQueryForIMMV q colNames = .ok q') :
    q'.hasAggs = true
    ∧ (∀ tle ∈ q.targetList, tle.resjunk = false →
        ∃ r ∈ q'.groupClause,
          ∃ t', get_sortgroupclause_tle r q'.targetList = some t'
            ∧ t'.resno = tle.resno ∧ t'.resname = tle.resname)
    ∧ q'.targetList.getLast? = some (ivmCountTle q'.targetList.length) := by
  obtain ⟨⟨ec, htl⟩, hgc, hdc, hha⟩ := rewriteInterm_props q
  unfold rewriteQueryForIMMV at hrw
  set im := rewriteInterm q with him
  set p := transformDistinctClause im.targetList with hp
  set q2' := (im.withTargetList p.1).withGroupRefs p.2 with hq2
  have hq2aggs : q2'.hasAggs = false := by
    rw [hq2, withGroupRefs_hasAggs, withTargetList_hasAggs, hha, ha]
  have hq2d : q2'.distinctClause ≠ [] := by
    rw [hq2, withGroupRefs_distinctClause, withTargetList_distinctClause, hdc]
    exact hd
  have hst : rewriteStageGroup im = .ok q2' := by
    unfold rewriteStageGroup
    rw [if_neg (by rw [hgc, hg]; simp)]
    rw [if_pos ⟨by rw [hha, ha]; simp, by rw [hdc]; exact hd⟩]
    rw [except_pure, hq2, hp]
  rw [hst, except_ok_bind, except_pure] at hrw
  have haggs : rewriteStageAggs colNames q2' = q2' := by
    unfold rewriteStageAggs
    rw [hq2aggs]
    simp
  rw [haggs] at hrw
  have hcount : rewriteStageCount q2' =
      (q2'.withTargetList
        (q2'.targetList ++ [ivmCountTle (q2'.targetList.length + 1)])).withHasAggs true := by
    unfold rewriteStageCount
    rw [if_pos (Or.inl hq2d)]
  rw [hcount] at hrw
  have hpdef : p = assignRefs (maxSortGroupRef im.targetList + 1) im.targetList := by
    rw [hp]
    rfl
  cases hrw
  refine ⟨?_, ?_, ?_⟩
  · rw [withHasAggs_hasAggs]
  · intro tle htle hjunk
    have htle' : tle ∈ im.targetList := by
      rw [htl]; exact List.mem_append_left _ htle
    have hfresh : ∀ t ∈ im.targetList,
        t.ressortgroupref < maxSortGroupRef im.targetList + 1 := by
      intro t ht
      exact Nat.lt_succ_of_le (le_maxSortGroupRef _ t ht)
    rcases assignRefs_covers im.targetList (maxSortGroupRef im.targetList + 1)
        hfresh tle htle' hjunk with ⟨r, hr, hfind⟩
    refine ⟨r, ?_, ⟨tle.withSortGroupRef r, ?_, ?_, ?_⟩⟩
    · rw [withHasAggs_groupClause, withTargetList_groupClause, hq2,
        withGroupRefs_groupClause, hpdef]
      exact hr
    · rw [withHasAggs_targetList, withTargetList_targetList]
      apply get_sortgroupclause_tle_append
      rw [hq2, withGroupRefs_targetList, withTargetList_targetList, hpdef]
      exact hfind
    · rw [withSortGroupRef_resno]
    · rw [withSortGroupRef_resname]
  · rw [withHasAggs_targetList, withTargetList_targetList]
    rw [List.getLast?_concat, List.length_append, List.length_singleton]

theorem C2_witness :
    q1.distinctClause ≠ [] ∧ q1.hasAggs = false ∧ q1.groupClause = []
    ∧ rewriteQueryForIMMV q1 [] = .ok c1out
    ∧ (c1out.hasAggs = true
       ∧ (∀ tle ∈ q1.targetList, tle.resjunk = false →
            ∃ r ∈ c1out.groupClause,
              ∃ t', get_sortgroupclause_tle r c1out.targetList = some t'
                ∧ t'.resno = tle.resno ∧ t'.resname = tle.resname)
       ∧ c1out.targetList.getLast? = some (ivmCountTle c1out.targetList.length)) :=
  ⟨by decide, rfl, rfl, rfl,
    C2_distinct_becomes_group q1 [] c1out (by decide) rfl rfl rfl⟩

/-- C2 counterexample: `SELECT DISTINCT a, b FROM t GROUP BY a` (legal SQL
when `a` is a key) has a DISTINCT clause and no aggregates, yet the
rewritten query keeps the original GROUP BY `[a]`, which does not cover the
original column `b` — the claim's "GROUP BY over all original columns" fails
whenever the query already carries its own GROUP BY. -/
theorem C2_counterexample :
    c2cex.distinctClause ≠ [] ∧ c2cex.hasAggs = false
    ∧ rewriteQueryForIMMV c2cex [] = .ok c2out
    ∧ ¬(∀ tle ∈ c2cex.targetList, tle.resjunk = false →
          ∃ r ∈ c2out.groupClause,
            ∃ t', get_sortgroupclause_tle r c2out.targetList = some t'
              ∧ t'.resno = tle.resno ∧ t'.resname = tle.resname) := by
  refine ⟨by decide, rfl, rfl, ?_⟩
  intro h
  rcases h tleB (show tleB ∈ [tleA, tleB] from
      List.mem_cons_of_mem _ (List.mem_cons_self _ _)) rfl with
    ⟨r, hr, t', hfind, hresno, hresname⟩
  have hr1 : r = 1 := by
    have : c2out.groupClause = [1] := rfl
    rw [this] at hr
    simpa using hr
  subst hr1
  have : get_sortgroupclause_tle 1 c2out.targetList = some tleA := rfl
  rw [this] at hfind
  cases hfind
  exact absurd hresno (by decide)

/-! Evaluation lemmas for the trigger recursion on `RangeTblRef` nodes. -/

theorem trigJt_rtref_none (rt : List RTEntry) (mv : Oid) (ex : Bool)
    (visited : List Oid) (rti : Nat) (hg : rt.get? (rti - 1) = none) :
    trigJt rt mv ex visited (.rtref rti) = (visited, []) := by
  rw [trigJt]
  split
  · next rte hg2 => rw [hg] at hg2; cases hg2
  · rfl

theorem trigJt_rtref_some (rt : List RTEntry) (mv : Oid) (ex : Bool)
    (visited : List Oid) (rti : Nat) (rte : RTEntry)
    (hg : rt.get? (rti - 1) = some rte) :
    trigJt rt mv ex visited (.rtref rti) =
      (if rte.rtekind = .relation ∧ rte.relid ∉ visited then
        (rte.relid :: visited, sixIvmTriggers rte.relid mv ex)
      else if rte.rtekind = .subquery then
        match rte.subquery with
        | some sq => trigQuery mv ex visited sq
        | none => (visited, [])
      else (visited, [])) := by
  rw [trigJt]
  split
  · next rte2 hg2 =>
      rw [hg] at hg2
      cases hg2
      by_cases h1 : rte.rtekind = .relation ∧ rte.relid ∉ visited
      · rw [if_pos h1, if_pos h1]
      · rw [if_neg h1, if_neg h1]
        by_cases h2 : rte.rtekind = .subquery
        · rw [if_pos h2, if_pos h2]
          split
          · next sq hs2 => rw [hs2]
          · next hs2 => rw [hs2]
        · rw [if_neg h2, if_neg h2]
  · next hg2 => rw [hg] at hg2; cases hg2

theorem baseRelsJt_rtref_none (rt : List RTEntry) (rti : Nat)
    (hg : rt.get? (rti - 1) = none) :
    baseRelsJt rt (.rtref rti) = [] := by
  rw [baseRelsJt]
  split
  · next rte hg2 => rw [hg] at hg2; cases hg2
  · rfl

theorem baseRelsJt_rtref_some (rt : List RTEntry) (rti : Nat) (rte : RTEntry)
    (hg : rt.get? (rti - 1) = some rte) :
    baseRelsJt rt (.rtref rti) =
      (if rte.rtekind = .relation then [rte.relid]
      else if rte.rtekind = .subquery then
        match rte.subquery with
        | some sq => baseRelsQuery sq
        | none => []
      else []) := by
  rw [baseRelsJt]
  split
  · next rte2 hg2 =>
      rw [hg] at hg2
      cases hg2
      by_cases h1 : rte.rtekind = .relation
      · rw [if_pos h1, if_pos h1]
      · rw [if_neg h1, if_neg h1]
        by_cases h2 : rte.rtekind = .subquery
        · rw [if_pos h2, if_pos h2]
          split
          · next sq hs2 => rw [hs2]
          · next hs2 => rw [hs2]
        · rw [if_neg h2, if_neg h2]
  · next hg2 => rw [hg] at hg2; cases hg2

/-- Filtering the six per-relation triggers by owning relation. -/
theorem filter_sixIvmTriggers (a mv : Oid) (ex : Bool) (r : Oid) :
    (sixIvmTriggers a mv ex).filter (fun t => t.relid = r)
      = if a = r then sixIvmTriggers a mv ex else [] := by
  by_cases h : a = r
  · subst h
    simp [sixIvmTriggers, CreateIvmTrigger]
  · simp [sixIvmTriggers, CreateIvmTrigger, h]

/-- Every one of the six per-relation triggers carries the relation, the
lock-mode flag, and the claim-relevant shape. -/
theorem mem_sixIvmTriggers_props (a mv : Oid) (ex : Bool) (t : TriggerDesc)
    (ht : t ∈ sixIvmTriggers a mv ex) :
    t.relid = a ∧ t.ex_lock = ex ∧ trigger_shape mv t := by
  simp only [sixIvmTriggers, List.mem_cons, List.not_mem_nil, or_false] at ht
  rcases ht with rfl | rfl | rfl | rfl | rfl | rfl <;>
    exact ⟨rfl, rfl, by simp [trigger_shape, CreateIvmTrigger]⟩

/-- Sequential composition of the visited-set/trigger-list invariant. -/
theorem trig_spec_compose (mv : Oid) (ex : Bool)
    (visited v1 v2 : List Oid) (t1 t2 : List TriggerDesc)
    (reach1 reach2 : List Oid)
    (h1v : ∀ s, s ∈ v1 ↔ s ∈ visited ∨ s ∈ reach1)
    (h1f : ∀ r, t1.filter (fun t => t.relid = r)
        = if r ∈ reach1 ∧ r ∉ visited then sixIvmTriggers r mv ex else [])
    (h2v : ∀ s, s ∈ v2 ↔ s ∈ v1 ∨ s ∈ reach2)
    (h2f : ∀ r, t2.filter (fun t => t.relid = r)
        = if r ∈ reach2 ∧ r ∉ v1 then sixIvmTriggers r mv ex else []) :
    (∀ s, s ∈ v2 ↔ s ∈ visited ∨ s ∈ reach1 ++ reach2)
    ∧ ∀ r, (t1 ++ t2).filter (fun t => t.relid = r)
        = if r ∈ reach1 ++ reach2 ∧ r ∉ visited then sixIvmTriggers r mv ex else [] := by
  constructor
  · intro s
    rw [h2v, h1v, List.mem_append]
    tauto
  · intro r
    rw [List.filter_append, h1f, h2f]
    by_cases hv : r ∈ visited
    · have hv1 : r ∈ v1 := (h1v r).mpr (Or.inl hv)
      simp [hv, hv1]
    · by_cases hr1 : r ∈ reach1
      · have hv1 : r ∈ v1 := (h1v r).mpr (Or.inr hr1)
        simp [hv, hr1, hv1, List.mem_append]
      · have hv1 : r ∉ v1 := by
          intro hcon
          rcases (h1v r).mp hcon with h' | h' <;> contradiction
        by_cases hr2 : r ∈ reach2
        · simp [hv, hr1, hr2, hv1, List.mem_append]
        · simp [hv, hr1, hr2, hv1, List.mem_append]

mutual

/-- The visited-set and per-relation trigger-list invariant of
`CreateIvmTriggersOnBaseTablesRecurse`, `T_Query` case: the trigger list
holds exactly the six triggers for every base relation reachable but not
yet visited, and the visited set grows by the reachable relations. -/
theorem trig_spec_query (mv : Oid) (ex : Bool) (visited : List Oid) (q : Query) :
    (∀ s, s ∈ (trigQuery mv ex visited q).1 ↔ s ∈ visited ∨ s ∈ baseRelsQuery q)
    ∧ ∀ r, (trigQuery mv ex visited q).2.filter (fun t => t.relid = r)
        = if r ∈ baseRelsQuery q ∧ r ∉ visited then sixIvmTriggers r mv ex else [] := by
  cases q with
  | mk tl rt fl w hv lo lc c cl f =>
    have h1 := trig_spec_jtlist rt mv ex visited fl
    have h2 := trig_spec_ctelist mv ex (trigJtList rt mv ex visited fl).1 c
    have hc := trig_spec_compose mv ex visited _ _ _ _ _ _ h1.1 h1.2 h2.1 h2.2
    simpa only [trigQuery, baseRelsQuery] using hc
termination_by sizeOf q
decreasing_by
  all_goals simp_wf
  all_goals omega

theorem trig_spec_jt (rt : List RTEntry) (mv : Oid) (ex : Bool)
    (visited : List Oid) (n : JtNode) :
    (∀ s, s ∈ (trigJt rt mv ex visited n).1 ↔ s ∈ visited ∨ s ∈ baseRelsJt rt n)
    ∧ ∀ r, (trigJt rt mv ex visited n).2.filter (fun t => t.relid = r)
        = if r ∈ baseRelsJt rt n ∧ r ∉ visited then sixIvmTriggers r mv ex else [] := by
  cases n with
  | rtref rti =>
      cases hg : rt.get? (rti - 1) with
      | none =>
          rw [trigJt_rtref_none rt mv ex visited rti hg,
            baseRelsJt_rtref_none rt rti hg]
          simp
      | some rte =>
          rw [trigJt_rtref_some rt mv ex visited rti rte hg,
            baseRelsJt_rtref_some rt rti rte hg]
          by_cases h1 : rte.rtekind = .relation
          · rw [if_pos h1]
            have hns : ¬(rte.rtekind = RTEKind.subquery) := by
              rw [h1]
              decide
            by_cases hvv : rte.relid ∈ visited
            · rw [if_neg (fun hcon => hcon.2 hvv), if_neg hns]
              refine ⟨?_, ?_⟩
              · intro s
                simp only [List.mem_singleton]
                refine ⟨fun h => Or.inl h, ?_⟩
                rintro (h | rfl)
                · exact h
                · exact hvv
              · intro r
                by_cases hra : r = rte.relid
                · subst hra
                  rw [if_neg (fun hcon => hcon.2 hvv)]
                  simp
                · rw [if_neg (fun hcon => hra (List.mem_singleton.mp hcon.1))]
                  simp
            · rw [if_pos ⟨h1, hvv⟩]
              refine ⟨?_, ?_⟩
              · intro s
                simp only [List.mem_cons, List.mem_singleton]
                tauto
              · intro r
                show (sixIvmTriggers rte.relid mv ex).filter (fun t => t.relid = r) = _
                rw [filter_sixIvmTriggers]
                by_cases hra : rte.relid = r
                · subst hra
                  rw [if_pos rfl, if_pos ⟨List.mem_singleton.mpr rfl, hvv⟩]
                · rw [if_neg hra,
                    if_neg (fun hcon => hra (List.mem_singleton.mp hcon.1).symm)]
          · rw [if_neg (fun hcon => h1 hcon.1), if_neg h1]
            by_cases h2 : rte.rtekind = .subquery
            · rw [if_pos h2, if_pos h2]
              cases hsq : rte.subquery with
              | some sq => exact trig_spec_query mv ex visited sq
              | none => simp
            · rw [if_neg h2, if_neg h2]
              simp
  | fromE fl q =>
      rw [trigJt, baseRelsJt]
      exact trig_spec_jtlist rt mv ex visited fl
  | joinE jt la ra q =>
      have h1 := trig_spec_jt rt mv ex visited la
      have h2 := trig_spec_jt rt mv ex (trigJt rt mv ex visited la).1 ra
      have hc := trig_spec_compose mv ex visited _ _ _ _ _ _ h1.1 h1.2 h2.1 h2.2
      simpa only [trigJt, baseRelsJt] using hc
termination_by sizeOf rt + sizeOf n
decreasing_by
  all_goals simp_wf
  all_goals try omega
  · have hmem := List.get?_mem hg
    have hsz := List.sizeOf_lt_of_mem hmem
    cases rte with
    | mk b s j =>
      simp [RTEntry.subquery] at hsq
      subst hsq
      simp at hsz
      omega

theorem trig_spec_jtlist (rt : List RTEntry) (mv : Oid) (ex : Bool)
    (visited : List Oid) (ns : List JtNode) :
    (∀ s, s ∈ (trigJtList rt mv ex visited ns).1 ↔
        s ∈ visited ∨ s ∈ baseRelsJtList rt ns)
    ∧ ∀ r, (trigJtList rt mv ex visited ns).2.filter (fun t => t.relid = r)
        = if r ∈ baseRelsJtList rt ns ∧ r ∉ visited then sixIvmTriggers r mv ex else [] := by
  cases ns with
  | nil =>
      rw [trigJtList, baseRelsJtList]
      simp
  | cons n ns' =>
      have h1 := trig_spec_jt rt mv ex visited n
      have h2 := trig_spec_jtlist rt mv ex (trigJt rt mv ex visited n).1 ns'
      have hc := trig_spec_compose mv ex visited _ _ _ _ _ _ h1.1 h1.2 h2.1 h2.2
      simpa only [trigJtList, baseRelsJtList] using hc
termination_by sizeOf rt + sizeOf ns
decreasing_by
  all_goals simp_wf
  all_goals omega

theorem trig_spec_ctelist (mv : Oid) (ex : Bool) (visited : List Oid)
    (cs : List Cte) :
    (∀ s, s ∈ (trigCteList mv ex visited cs).1 ↔
        s ∈ visited ∨ s ∈ baseRelsCteList cs)
    ∧ ∀ r, (trigCteList mv ex visited cs).2.filter (fun t => t.relid = r)
        = if r ∈ baseRelsCteList cs ∧ r ∉ visited then sixIvmTriggers r mv ex else [] := by
  cases cs with
  | nil =>
      rw [trigCteList, baseRelsCteList]
      simp
  | cons cte cs' =>
      cases cte with
      | mk nm cq =>
        have h1 := trig_spec_query mv ex visited cq
        have h2 := trig_spec_ctelist mv ex (trigQuery mv ex visited cq).1 cs'
        have hc := trig_spec_compose mv ex visited _ _ _ _ _ _ h1.1 h1.2 h2.1 h2.2
        simpa only [trigCteList, baseRelsCteList] using hc
termination_by sizeOf cs
decreasing_by
  all_goals simp_wf
  all_goals omega

end

/-- C4: `CreateIvmTriggersOnBaseTables` chooses the non-exclusive lock mode
(`ex_lock = false`) exactly when the range table holds exactly one entry
from the starting index on and that entry is a plain base relation; in every
other case — more entries past the starting index, or a first entry that is
not a plain relation — the exclusive flag is what every created trigger
receives. -/
theorem C4_lock_mode (q : Query) (mv : Oid) (ic : Bool)
    (h : ivm_first_rtindex ic ≤ q.rtable.length) :
    (ivm_ex_lock q ic = false ↔
      (q.rtable.length = ivm_first_rtindex ic ∧
        ∃ rte, q.rtable.get? (ivm_first_rtindex ic - 1) = some rte
          ∧ rte.rtekind = RTEKind.relation))
    ∧ (∀ t ∈ CreateIvmTriggersOnBaseTables q mv ic,
        t.ex_lock = ivm_ex_lock q ic) := by
  have hfirst1 : 1 ≤ ivm_first_rtindex ic := by
    unfold ivm_first_rtindex
    split <;> simp [PRS2_NEW_VARNO]
  constructor
  · cases hg : q.rtable.get? (ivm_first_rtindex ic - 1) with
    | none =>
      exfalso
      have hlen := List.get?_eq_none.mp hg
      omega
    | some rte =>
      have hev : ivm_ex_lock q ic =
          (decide (q.rtable.length > ivm_first_rtindex ic)
            || decide (rte.rtekind ≠ RTEKind.relation)) := by
        unfold ivm_ex_lock
        rw [hg]
      rw [hev]
      simp only [Bool.or_eq_false_iff, decide_eq_false_iff_not, not_lt, ne_eq,
        not_not]
      constructor
      · rintro ⟨hf1, hf2⟩
        exact ⟨by omega, rte, rfl, hf2⟩
      · rintro ⟨hlen, rte', hrte', hkind⟩
        injection hrte' with he
        subst he
        exact ⟨by omega, hkind⟩
  · intro t ht
    unfold CreateIvmTriggersOnBaseTables at ht
    by_cases hlt : q.rtable.length < ivm_first_rtindex ic
    · rw [if_pos hlt] at ht
      exact absurd ht (List.not_mem_nil t)
    · rw [if_neg hlt] at ht
      have hfil := (trig_spec_query mv (ivm_ex_lock q ic) [] q).2 t.relid
      have htf : t ∈ (trigQuery mv (ivm_ex_lock q ic) [] q).2.filter
          (fun x => x.relid = t.relid) := List.mem_filter.mpr ⟨ht, by simp⟩
      rw [hfil] at htf
      split at htf
      · exact (mem_sixIvmTriggers_props _ _ _ _ htf).2.1
      · exact absurd htf (List.not_mem_nil t)

theorem C4_witness :
    ivm_first_rtindex true ≤ q1.rtable.length
    ∧ ((ivm_ex_lock q1 true = false ↔
        (q1.rtable.length = ivm_first_rtindex true ∧
          ∃ rte, q1.rtable.get? (ivm_first_rtindex true - 1) = some rte
            ∧ rte.rtekind = RTEKind.relation))
      ∧ (∀ t ∈ CreateIvmTriggersOnBaseTables q1 900 true,
          t.ex_lock = ivm_ex_lock q1 true)) :=
  ⟨by decide, C4_lock_mode q1 900 true (by decide)⟩

/-- C5: with at least one range-table entry (so provisioning runs), every
base relation reachable from the rewritten query's join tree, CTE list and
nested subquery entries receives exactly the six triggers — BEFORE and
AFTER timing crossed with INSERT, DELETE and UPDATE — and a relation
reached more than once receives them only once (the filtered trigger list
is exactly the six-trigger block, or empty for unreachable relations);
moreover every created trigger names `IVM_immediate_before` (BEFORE, no
transition tables) or `IVM_immediate_maintenance` (AFTER, with
`__ivm_newtable` bound for INSERT/UPDATE and `__ivm_oldtable` for
DELETE/UPDATE). -/
theorem C5_six_triggers_per_base_rel (q : Query) (mv r : Oid)
    (h : 1 ≤ q.rtable.length) :
    ((CreateIvmTriggersOnBaseTables q mv true).filter (fun t => t.relid = r)
      = if r ∈ baseRelsQuery q then sixIvmTriggers r mv (ivm_ex_lock q true)
        else [])
    ∧ ∀ t ∈ CreateIvmTriggersOnBaseTables q mv true, trigger_shape mv t := by
  have hns : ¬(q.rtable.length < ivm_first_rtindex true) := by
    unfold ivm_first_rtindex
    simp only [if_true, reduceIte]
    omega
  unfold CreateIvmTriggersOnBaseTables
  rw [if_neg hns]
  constructor
  · have hfil := (trig_spec_query mv (ivm_ex_lock q true) [] q).2 r
    rw [hfil]
    by_cases hr : r ∈ baseRelsQuery q
    · rw [if_pos ⟨hr, List.not_mem_nil r⟩, if_pos hr]
    · rw [if_neg (fun hcon => hr hcon.1), if_neg hr]
  · intro t ht
    have hfil := (trig_spec_query mv (ivm_ex_lock q true) [] q).2 t.relid
    have htf : t ∈ (trigQuery mv (ivm_ex_lock q true) [] q).2.filter
        (fun x => x.relid = t.relid) := List.mem_filter.mpr ⟨ht, by simp⟩
    rw [hfil] at htf
    split at htf
    · exact (mem_sixIvmTriggers_props _ _ _ _ htf).2.2
    · exact absurd htf (List.not_mem_nil t)

theorem C5_witness :
    1 ≤ q1.rtable.length
    ∧ (((CreateIvmTriggersOnBaseTables q1 900 true).filter (fun t => t.relid = 101)
        = if 101 ∈ baseRelsQuery q1 then sixIvmTriggers 101 900 (ivm_ex_lock q1 true)
          else [])
      ∧ ∀ t ∈ CreateIvmTriggersOnBaseTables q1 900 true, trigger_shape 900 t) :=
  ⟨by decide, C5_six_triggers_per_base_rel q1 900 101 (by decide)⟩

/-! Lemmas for the primary-key propagation analyzer. -/

theorem list_get_set_self {α : Type} (l : List α) (i : Nat) (x : α)
    (h : i < l.length) : (l.set i x).get? i = some x := by
  induction l generalizing i with
  | nil => simp at h
  | cons a as ih =>
    cases i with
    | zero => rfl
    | succ i' =>
      simp only [List.set, List.get?]
      exact ih i' (by simpa using h)

theorem list_get_set_other {α : Type} (l : List α) (i j : Nat) (x : α)
    (h : ¬(i = j)) : (l.set i x).get? j = l.get? j := by
  induction l generalizing i j with
  | nil => rfl
  | cons a as ih =>
    cases i with
    | zero =>
      cases j with
      | zero => exact absurd rfl h
      | succ j' => rfl
    | succ i' =>
      cases j with
      | zero => rfl
      | succ j' =>
        simp only [List.set, List.get?]
        exact ih i' j' (fun hc => h (by rw [hc]))

theorem gpkStep_rel (cat : Catalog) (ctes : List Cte) (first i : Nat)
    (rte : RTEntry) (acc : List Oid)
    (hf : first ≤ i) (hkind : rte.rtekind = RTEKind.relation) :
    gpkStep cat ctes first i rte acc =
      (match cat.pkey_attnos rte.relid with
       | some ks => (some (some ks), acc ++ [cat.pkey_constraint rte.relid])
       | none => (none, acc ++ [cat.pkey_constraint rte.relid])) := by
  unfold gpkStep
  rw [if_pos hf, hkind]

/-- A relation without a primary key anywhere in the scanned range forces
the range-table loop to fail. -/
theorem gpkRtable_none_of_nopk (cat : Catalog) (ctes : List Cte)
    (rts : List RTEntry) :
    ∀ (i : Nat) (acc : List Oid) (j : Nat) (rte : RTEntry),
      rts.get? j = some rte → rte.rtekind = RTEKind.relation →
      cat.pkey_attnos rte.relid = none → 1 ≤ i →
      (gpkRtable cat ctes 1 i rts acc).1 = none := by
  induction rts with
  | nil =>
    intro i acc j rte hj
    simp at hj
  | cons r rs ih =>
    intro i acc j rte hj hkind hpk hi
    rw [gpkRtable]
    cases j with
    | zero =>
      simp only [List.get?] at hj
      injection hj with he
      subst he
      rw [gpkStep_rel cat ctes 1 i r acc hi hkind, hpk]
    | succ j' =>
      simp only [List.get?] at hj
      rcases hstep : gpkStep cat ctes 1 i r acc with ⟨o, acc'⟩
      cases o with
      | none => rfl
      | some entry =>
        dsimp only
        have hrec := ih (i + 1) acc' j' rte hj hkind hpk (by omega)
        rcases hres : gpkRtable cat ctes 1 (i + 1) rs acc' with ⟨o2, a2⟩
        rw [hres] at hrec
        cases o2 with
        | none => rfl
        | some kal => simp at hrec

/-- On success, a keyed relation's slot in the key-set list holds exactly
its primary-key attribute set. -/
theorem gpkRtable_kal_at (cat : Catalog) (ctes : List Cte)
    (rts : List RTEntry) :
    ∀ (i : Nat) (acc : List Oid) (j : Nat) (rte : RTEntry) (ks : List Int)
      (kal : List (List Int)) (acc2 : List Oid),
      rts.get? j = some rte → rte.rtekind = RTEKind.relation →
      cat.pkey_attnos rte.relid = some ks → 1 ≤ i →
      gpkRtable cat ctes 1 i rts acc = (some kal, acc2) →
      kal.get? j = some ks := by
  induction rts with
  | nil =>
    intro i acc j rte ks kal acc2 hj
    simp at hj
  | cons r rs ih =>
    intro i acc j rte ks kal acc2 hj hkind hpk hi hres
    rw [gpkRtable] at hres
    cases j with
    | zero =>
      simp only [List.get?] at hj
      injection hj with he
      subst he
      rw [gpkStep_rel cat ctes 1 i r acc hi hkind, hpk] at hres
      dsimp only at hres
      rcases hr2 : gpkRtable cat ctes 1 (i + 1) rs
          (acc ++ [cat.pkey_constraint r.relid]) with ⟨o2, a2⟩
      rw [hr2] at hres
      cases o2 with
      | none => simp at hres
      | some kal' =>
        dsimp only at hres
        simp only [Prod.mk.injEq, Option.some.injEq] at hres
        obtain ⟨h1, _⟩ := hres
        subst h1
        rfl
    | succ j' =>
      simp only [List.get?] at hj
      rcases hstep : gpkStep cat ctes 1 i r acc with ⟨o, acc'⟩
      rw [hstep] at hres
      cases o with
      | none => simp at hres
      | some entry =>
        dsimp only at hres
        rcases hr2 : gpkRtable cat ctes 1 (i + 1) rs acc' with ⟨o2, a2⟩
        rw [hr2] at hres
        cases o2 with
        | none => simp at hres
        | some kal' =>
          dsimp only at hres
          simp only [Prod.mk.injEq, Option.some.injEq] at hres
          obtain ⟨h1, _⟩ := hres
          subst h1
          simp only [List.get?]
          exact ih (i + 1) acc' j' rte ks kal' a2 hj hkind hpk (by omega) hr2

/-- The target-list scan never removes a key attribute that no (flattened)
bare column reference addresses. -/
theorem gpkScanTl_preserves (q : Query) (vI : Nat) (k : Int) :
    ∀ (tl : List TargetEntry) (kal : List (List Int)) (i : Nat)
      (keys s : List Int),
      kal.get? vI = some s → k ∈ s →
      (∀ tle ∈ tl, ∀ v a t l,
        flatten_join_alias_vars q tle.expr = Expr.varE v a t l →
        v - 1 = vI → ¬(a - FirstLowInvalidHeapAttributeNumber = k)) →
      ∃ s', (gpkScanTl q tl kal i keys).1.get? vI = some s' ∧ k ∈ s' := by
  intro tl
  induction tl with
  | nil =>
    intro kal i keys s hs hk _
    exact ⟨s, hs, hk⟩
  | cons tle ts ih =>
    intro kal i keys s hs hk hproj
    have hproj' : ∀ tle' ∈ ts, ∀ v a t l,
        flatten_join_alias_vars q tle'.expr = Expr.varE v a t l →
        v - 1 = vI → ¬(a - FirstLowInvalidHeapAttributeNumber = k) :=
      fun tle' h => hproj tle' (List.mem_cons_of_mem _ h)
    rw [gpkScanTl]
    cases hfl : flatten_join_alias_vars q tle.expr with
    | varE v a t l =>
      dsimp only
      by_cases hmem : (a - FirstLowInvalidHeapAttributeNumber) ∈ kal.getD (v - 1) []
      · rw [if_pos hmem]
        by_cases hv : v - 1 = vI
        · have hnk : ¬(a - FirstLowInvalidHeapAttributeNumber = k) :=
            hproj tle (List.mem_cons_self _ _) v a t l hfl hv
          obtain ⟨hlt, _⟩ := List.get?_eq_some.mp hs
          have hgd : kal.getD (v - 1) [] = s := by
            rw [hv, List.getD_eq_get?, hs]
            rfl
          apply ih _ (i + 1) _ (bmsDel s (a - FirstLowInvalidHeapAttributeNumber))
          · have hgd2 : kal.getD vI [] = s := by
              rw [← hv]
              exact hgd
            rw [hv, hgd2]
            exact list_get_set_self kal vI _ hlt
          · simp only [bmsDel, List.mem_filter, decide_eq_true_eq]
            exact ⟨hk, fun hc => hnk (by rw [hc])⟩
          · exact hproj'
        · apply ih _ (i + 1) _ s _ hk hproj'
          rw [list_get_set_other kal (v - 1) vI _ hv]
          exact hs
      · rw [if_neg hmem]
        exact ih kal (i + 1) keys s hs hk hproj'
    | constE c1 c2 => exact ih kal (i + 1) keys s hs hk hproj'
    | opE o1 o2 o3 => exact ih kal (i + 1) keys s hs hk hproj'
    | funcE f1 f2 f3 f4 f5 => exact ih kal (i + 1) keys s hs hk hproj'
    | boolE b1 b2 => exact ih kal (i + 1) keys s hs hk hproj'
    | aggE a1 a2 a3 a4 a5 a6 a7 a8 => exact ih kal (i + 1) keys s hs hk hproj'
    | subLinkE s1 s2 => exact ih kal (i + 1) keys s hs hk hproj'

/-- A non-empty leftover key set of a FROM-clause relation makes the final
check fire. -/
theorem gpkLeftover_true (rels : List Nat) :
    ∀ (kal : List (List Int)) (i vI : Nat) (s : List Int),
      kal.get? vI = some s → s ≠ [] → (i + vI) ∈ rels →
      gpkLeftover kal i rels = true := by
  intro kal
  induction kal with
  | nil =>
    intro i vI s hs
    simp at hs
  | cons b rest ih =>
    intro i vI s hs hne hmem
    cases vI with
    | zero =>
      simp only [List.get?] at hs
      injection hs with he
      subst he
      rw [gpkLeftover]
      simp only [Nat.add_zero] at hmem
      simp [hmem]
      exact Or.inl hne
    | succ vI' =>
      simp only [List.get?] at hs
      rw [gpkLeftover]
      have harith : i + 1 + vI' = i + (vI' + 1) := by omega
      have := ih (i + 1) vI' s hs hne (by rw [harith]; exact hmem)
      simp [this]

/-- C6: whenever some base relation of the query lacks a primary key, or
some primary-key attribute of a FROM-clause base relation is not projected
as a (flattened) bare column reference, `get_primary_key_attnos_from_query`
returns the empty result (`none`, never a partial key set); and in that
case `CreateIndexOnIMMV` — for a query with neither GROUP BY nor DISTINCT —
ends in the informational no-index notice, raising no error. -/
theorem C6_no_pk_no_index (cat : Catalog) (q : Query) (attnames : List String)
    (existing : List (List String))
    (hyp :
      (∃ j rte, q.rtable.get? j = some rte ∧ rte.rtekind = RTEKind.relation
         ∧ cat.pkey_attnos rte.relid = none)
      ∨ (∃ j rte ks k, q.rtable.get? j = some rte
           ∧ rte.rtekind = RTEKind.relation
           ∧ cat.pkey_attnos rte.relid = some ks ∧ k ∈ ks
           ∧ (j + 1) ∈ rels_in_from q
           ∧ ∀ tle ∈ q.targetList, ∀ v a t l,
               flatten_join_alias_vars q tle.expr = Expr.varE v a t l →
               v - 1 = j → ¬(a - FirstLowInvalidHeapAttributeNumber = k))) :
    (get_primary_key_attnos_from_query cat true q []).1 = none
    ∧ (q.groupClause = [] → q.distinctClause = [] →
        CreateIndexOnIMMV cat q attnames existing true
          = .ok IndexOutcome.noIndexNotice) := by
  have hfirst : ivm_first_rtindex true = 1 := rfl
  have hnone : (get_primary_key_attnos_from_query cat true q []).1 = none := by
    rcases hyp with ⟨j, rte, hj, hkind, hpk⟩ |
      ⟨j, rte, ks, k, hj, hkind, hpk, hkks, hfrom, hproj⟩
    · cases q with
      | mk tl rt fl w hv lo lc c cl f =>
        rw [get_primary_key_attnos_from_query, hfirst]
        have hr := gpkRtable_none_of_nopk cat c rt 1 [] j rte hj hkind hpk
          (le_refl 1)
        rcases hres : gpkRtable cat c 1 1 rt [] with ⟨o, a2⟩
        rw [hres] at hr
        cases o with
        | none => rfl
        | some kal => simp at hr
    · cases q with
      | mk tl rt fl w hv lo lc c cl f =>
        rw [get_primary_key_attnos_from_query, hfirst]
        rcases hres : gpkRtable cat c 1 1 rt [] with ⟨o, a2⟩
        cases o with
        | none => rfl
        | some kal =>
          dsimp only
          have hkal := gpkRtable_kal_at cat c rt 1 [] j rte ks kal a2 hj hkind
            hpk (le_refl 1) hres
          obtain ⟨s', hs', hks'⟩ := gpkScanTl_preserves
            (Query.mk tl rt fl w hv lo lc c cl f) j k tl kal 1 [] ks hkal hkks
            hproj
          have hlft := gpkLeftover_true
            (rels_in_from (Query.mk tl rt fl w hv lo lc c cl f))
            (gpkScanTl (Query.mk tl rt fl w hv lo lc c cl f) tl kal 1 []).1
            1 j s' hs' (List.ne_nil_of_mem hks')
            (by rw [Nat.add_comm]; exact hfrom)
          rw [if_pos hlft]
  refine ⟨hnone, ?_⟩
  intro hg hd
  unfold CreateIndexOnIMMV
  rw [if_neg (by simp [hg]), if_neg (by simp [hd])]
  rcases hres : get_primary_key_attnos_from_query cat true q [] with ⟨o, a⟩
  have ho : o = none := by
    rw [hres] at hnone
    exact hnone
  subst ho
  rfl

theorem C6_witness :
    ((∃ j rte, q2.rtable.get? j = some rte ∧ rte.rtekind = RTEKind.relation
       ∧ catDemo.pkey_attnos rte.relid = none)
      ∨ (∃ j rte ks k, q2.rtable.get? j = some rte
           ∧ rte.rtekind = RTEKind.relation
           ∧ catDemo.pkey_attnos rte.relid = some ks ∧ k ∈ ks
           ∧ (j + 1) ∈ rels_in_from q2
           ∧ ∀ tle ∈ q2.targetList, ∀ v a t l,
               flatten_join_alias_vars q2 tle.expr = Expr.varE v a t l →
               v - 1 = j → ¬(a - FirstLowInvalidHeapAttributeNumber = k)))
    ∧ ((get_primary_key_attnos_from_query catDemo true q2 []).1 = none
      ∧ (q2.groupClause = [] → q2.distinctClause = [] →
          CreateIndexOnIMMV catDemo q2 ["a"] [] true
            = .ok IndexOutcome.noIndexNotice)) :=
  ⟨Or.inl ⟨0, relRte 101, rfl, rfl, rfl⟩,
    C6_no_pk_no_index catDemo q2 ["a"] []
      (Or.inl ⟨0, relRte 101, rfl, rfl, rfl⟩)⟩

/-! Lemmas for the aggregate-companion stage of the rewriter. -/

theorem makeIvmAggColumn_avg (fno : Oid) (argtys : List Oid) (args : List Expr)
    (nm : String) (r : Nat) (hAvg : get_func_name fno = "avg") :
    makeIvmAggColumn fno argtys args nm r
      = ([TargetEntry.mk (ivm_count_companion_expr args) r
            (makeObjectName "__ivm_count" nm "_") false 0,
          TargetEntry.mk (ivm_sum_companion_expr argtys args) (r + 1)
            (makeObjectName "__ivm_sum" nm "_") false 0], r + 2) := by
  unfold makeIvmAggColumn
  rw [hAvg]
  rfl

theorem makeIvmAggColumn_count (fno : Oid) (argtys : List Oid) (args : List Expr)
    (nm : String) (r : Nat) (hc : get_func_name fno = "count") :
    makeIvmAggColumn fno argtys args nm r = ([], r) := by
  unfold makeIvmAggColumn
  rw [hc]
  rfl

theorem makeIvmAggColumn_other (fno : Oid) (argtys : List Oid) (args : List Expr)
    (nm : String) (r : Nat) (hnc : ¬(get_func_name fno = "count"))
    (hna : ¬(get_func_name fno = "avg")) :
    makeIvmAggColumn fno argtys args nm r
      = ([TargetEntry.mk (ivm_count_companion_expr args) r
            (makeObjectName "__ivm_count" nm "_") false 0], r + 1) := by
  unfold makeIvmAggColumn
  dsimp only
  rw [if_pos hnc]
  dsimp only
  rw [if_neg hna]

theorem makeIvmAggColumn_len (fno : Oid) (argtys : List Oid) (args : List Expr)
    (nm : String) (r : Nat) :
    (makeIvmAggColumn fno argtys args nm r).2
      = r + (makeIvmAggColumn fno argtys args nm r).1.length := by
  by_cases ha : get_func_name fno = "avg"
  · rw [makeIvmAggColumn_avg fno argtys args nm r ha]
    rfl
  · by_cases hc : get_func_name fno = "count"
    · rw [makeIvmAggColumn_count fno argtys args nm r hc]
      rfl
    · rw [makeIvmAggColumn_other fno argtys args nm r hc ha]
      rfl

theorem makeIvmAggColumn_resnos (fno : Oid) (argtys : List Oid) (args : List Expr)
    (nm : String) (r : Nat) :
    ∀ i, i < (makeIvmAggColumn fno argtys args nm r).1.length →
      tleResnoAt (makeIvmAggColumn fno argtys args nm r).1 i = r + i := by
  by_cases ha : get_func_name fno = "avg"
  · rw [makeIvmAggColumn_avg fno argtys args nm r ha]
    intro i hi
    cases i with
    | zero => rfl
    | succ i' =>
      cases i' with
      | zero => rfl
      | succ i'' => simp at hi; omega
  · by_cases hc : get_func_name fno = "count"
    · rw [makeIvmAggColumn_count fno argtys args nm r hc]
      intro i hi
      simp at hi
    · rw [makeIvmAggColumn_other fno argtys args nm r hc ha]
      intro i hi
      cases i with
      | zero => rfl
      | succ i' => simp at hi

theorem aggCompanions_len (cn : List String) (tle : TargetEntry) (r : Nat) :
    (aggCompanions cn tle r).2 = r + (aggCompanions cn tle r).1.length := by
  unfold aggCompanions
  cases hte : tle.expr with
  | aggE f t l atys as x y z => exact makeIvmAggColumn_len f atys as _ r
  | varE v a t l => rfl
  | constE c1 c2 => rfl
  | opE o1 o2 o3 => rfl
  | funcE f1 f2 f3 f4 f5 => rfl
  | boolE b1 b2 => rfl
  | subLinkE s1 s2 => rfl

theorem aggCompanions_resnos (cn : List String) (tle : TargetEntry) (r : Nat) :
    ∀ i, i < (aggCompanions cn tle r).1.length →
      tleResnoAt (aggCompanions cn tle r).1 i = r + i := by
  unfold aggCompanions
  cases hte : tle.expr with
  | aggE f t l atys as x y z => exact makeIvmAggColumn_resnos f atys as _ r
  | varE v a t l => intro i hi; simp at hi
  | constE c1 c2 => intro i hi; simp at hi
  | opE o1 o2 o3 => intro i hi; simp at hi
  | funcE f1 f2 f3 f4 f5 => intro i hi; simp at hi
  | boolE b1 b2 => intro i hi; simp at hi
  | subLinkE s1 s2 => intro i hi; simp at hi

theorem addAggColumns_len (cn : List String) (tl : List TargetEntry) :
    ∀ r, (addAggColumns cn tl r).2 = r + (addAggColumns cn tl r).1.length := by
  induction tl with
  | nil => intro r; rfl
  | cons tle ts ih =>
    intro r
    rw [addAggColumns]
    rcases hh : aggCompanions cn tle r with ⟨here, r'⟩
    dsimp only
    rcases hr2 : addAggColumns cn ts r' with ⟨rest, r2⟩
    dsimp only
    have h1 := aggCompanions_len cn tle r
    rw [hh] at h1
    dsimp only at h1
    have h2 := ih r'
    rw [hr2] at h2
    dsimp only at h2
    simp only [List.length_append]
    omega

theorem tleResnoAt_append_left (xs ys : List TargetEntry) (i : Nat)
    (h : i < xs.length) : tleResnoAt (xs ++ ys) i = tleResnoAt xs i := by
  unfold tleResnoAt
  rw [List.get?_append h]

theorem tleResnoAt_append_right (xs ys : List TargetEntry) (i : Nat)
    (h : xs.length ≤ i) :
    tleResnoAt (xs ++ ys) i = tleResnoAt ys (i - xs.length) := by
  unfold tleResnoAt
  rw [List.get?_append_right h]

theorem addAggColumns_resnos (cn : List String) (tl : List TargetEntry) :
    ∀ r i, i < (addAggColumns cn tl r).1.length →
      tleResnoAt (addAggColumns cn tl r).1 i = r + i := by
  induction tl with
  | nil =>
    intro r i hi
    simp [addAggColumns] at hi
  | cons tle ts ih =>
    intro r i hi
    rw [addAggColumns] at hi ⊢
    rcases hh : aggCompanions cn tle r with ⟨here, r'⟩
    rw [hh] at hi
    dsimp only at hi ⊢
    rcases hr2 : addAggColumns cn ts r' with ⟨rest, r2⟩
    rw [hr2] at hi
    dsimp only at hi ⊢
    have hlen := aggCompanions_len cn tle r
    rw [hh] at hlen
    dsimp only at hlen
    rw [List.length_append] at hi
    by_cases hcase : i < here.length
    · rw [tleResnoAt_append_left _ _ _ hcase]
      have h3 := aggCompanions_resnos cn tle r i (by rw [hh]; exact hcase)
      rw [hh] at h3
      exact h3
    · rw [tleResnoAt_append_right _ _ _ (Nat.le_of_not_lt hcase)]
      have h4 := ih r' (i - here.length) (by rw [hr2]; dsimp only; omega)
      rw [hr2] at h4
      dsimp only at h4
      rw [h4]
      omega

theorem addAggColumns_append (cn : List String) (tl0 : List TargetEntry) :
    ∀ (tl1 : List TargetEntry) (r : Nat),
      addAggColumns cn (tl0 ++ tl1) r
        = ((addAggColumns cn tl0 r).1
            ++ (addAggColumns cn tl1 (addAggColumns cn tl0 r).2).1,
           (addAggColumns cn tl1 (addAggColumns cn tl0 r).2).2) := by
  induction tl0 with
  | nil =>
    intro tl1 r
    simp [addAggColumns]
  | cons tle ts ih =>
    intro tl1 r
    show addAggColumns cn (tle :: (ts ++ tl1)) r = _
    rw [addAggColumns, addAggColumns]
    rcases hh : aggCompanions cn tle r with ⟨here, r'⟩
    dsimp only
    rcases hrec : addAggColumns cn (ts ++ tl1) r' with ⟨rest, r2⟩
    dsimp only
    have hihr := ih tl1 r'
    rw [hrec] at hihr
    rcases hp0 : addAggColumns cn ts r' with ⟨p01, p02⟩
    rw [hp0] at hihr
    dsimp only at hihr
    simp only [Prod.mk.injEq] at hihr
    obtain ⟨ha, hb⟩ := hihr
    subst ha
    subst hb
    rw [List.append_assoc]

theorem resnosContiguous_append (xs c : List TargetEntry)
    (hx : resnosContiguous xs)
    (hc : ∀ i, i < c.length → tleResnoAt c i = xs.length + i + 1) :
    resnosContiguous (xs ++ c) := by
  intro i hi
  rw [List.length_append] at hi
  by_cases h : i < xs.length
  · rw [tleResnoAt_append_left _ _ _ h]
    exact hx i h
  · rw [tleResnoAt_append_right _ _ _ (Nat.le_of_not_lt h)]
    rw [hc _ (by omega)]
    omega

theorem addAggColumns_avg_split (tl0 tl1 : List TargetEntry)
    (te : TargetEntry) (fno ty : Oid) (lvl : Nat) (argtys : List Oid)
    (args : List Expr) (b1 b2 b3 : Bool)
    (hExpr : te.expr = Expr.aggE fno ty lvl argtys args b1 b2 b3)
    (hAvg : get_func_name fno = "avg") (r : Nat) :
    (addAggColumns [] (tl0 ++ te :: tl1) r).1
      = (addAggColumns [] tl0 r).1
        ++ (TargetEntry.mk (ivm_count_companion_expr args)
              ((addAggColumns [] tl0 r).2)
              (makeObjectName "__ivm_count" te.resname "_") false 0
            :: TargetEntry.mk (ivm_sum_companion_expr argtys args)
              ((addAggColumns [] tl0 r).2 + 1)
              (makeObjectName "__ivm_sum" te.resname "_") false 0
            :: (addAggColumns [] tl1 ((addAggColumns [] tl0 r).2 + 2)).1) := by
  have hco : aggCompanions [] te (addAggColumns [] tl0 r).2
      = ([TargetEntry.mk (ivm_count_companion_expr args)
            ((addAggColumns [] tl0 r).2)
            (makeObjectName "__ivm_count" te.resname "_") false 0,
          TargetEntry.mk (ivm_sum_companion_expr argtys args)
            ((addAggColumns [] tl0 r).2 + 1)
            (makeObjectName "__ivm_sum" te.resname "_") false 0],
         (addAggColumns [] tl0 r).2 + 2) := by
    have h1 : aggCompanions [] te (addAggColumns [] tl0 r).2
        = makeIvmAggColumn fno argtys args te.resname
            (addAggColumns [] tl0 r).2 := by
      unfold aggCompanions
      rw [hExpr]
      rfl
    rw [h1, makeIvmAggColumn_avg fno argtys args te.resname _ hAvg]
  rw [addAggColumns_append [] tl0 (te :: tl1) r]
  dsimp only
  rw [addAggColumns, hco]
  dsimp only
  rcases h2 : addAggColumns [] tl1 ((addAggColumns [] tl0 r).2 + 2)
    with ⟨rest, r2⟩
  dsimp only
  rfl

theorem rewriteStageGroup_ok_aggs (r r' : Query) (ha : r.hasAggs = true)
    (h : rewriteStageGroup r = .ok r') : r' = r := by
  unfold rewriteStageGroup at h
  by_cases hgc : r.groupClause ≠ []
  · rw [if_pos hgc] at h
    cases hck : check_group_keys r.groupClause r.targetList with
    | error e =>
      rw [hck, except_error_bind] at h
      exact absurd h (by simp)
    | ok u =>
      rw [hck, except_ok_bind, except_pure] at h
      injection h with h'
      exact h'.symm
  · rw [if_neg hgc] at h
    rw [if_neg (by rw [ha]; simp)] at h
    rw [except_pure] at h
    injection h with h'
    exact h'.symm

/-- C3: for every (sublink-free) aggregating query whose target list holds a
bare `avg` aggregate entry named `a`, a successful rewrite leaves that entry
in place and the output target list contains, after it, a `count` companion
over the same arguments named `__ivm_count_a_` and, immediately next, a
`sum` companion over the same arguments named `__ivm_sum_a_`; provided the
input resnos were the contiguous 1-based sequence, each companion carries
the next available resno (position + 1) and the whole output target list
again has contiguous 1-based resnos. -/
theorem C3_avg_companions (q q' : Query) (tl0 tl1 : List TargetEntry)
    (te : TargetEntry) (fno ty : Oid) (lvl : Nat) (argtys : List Oid)
    (args : List Expr) (b1 b2 b3 : Bool) (a : String)
    (hNoSub : q.hasSubLinks = false)
    (hAggs : q.hasAggs = true)
    (hSplit : q.targetList = tl0 ++ te :: tl1)
    (hExpr : te.expr = Expr.aggE fno ty lvl argtys args b1 b2 b3)
    (hName : te.resname = a)
    (hAvg : get_func_name fno = "avg")
    (hContig : resnosContiguous q.targetList)
    (hRw : rewriteQueryForIMMV q [] = .ok q') :
    ∃ k,
      q'.targetList.get? tl0.length = some te
      ∧ tl0.length < k
      ∧ q'.targetList.get? k
          = some (TargetEntry.mk (ivm_count_companion_expr args) (k + 1)
              (makeObjectName "__ivm_count" a "_") false 0)
      ∧ q'.targetList.get? (k + 1)
          = some (TargetEntry.mk (ivm_sum_companion_expr argtys args) (k + 2)
              (makeObjectName "__ivm_sum" a "_") false 0)
      ∧ resnosContiguous q'.targetList := by
  have him : rewriteInterm q = q := by
    unfold rewriteInterm
    rw [hNoSub]
    rfl
  unfold rewriteQueryForIMMV at hRw
  rw [him] at hRw
  cases hsg : rewriteStageGroup q with
  | error e =>
    rw [hsg, except_error_bind] at hRw
    exact absurd hRw (by simp)
  | ok r0 =>
    rw [hsg, except_ok_bind, except_pure] at hRw
    have hr0 : r0 = q := rewriteStageGroup_ok_aggs q r0 hAggs hsg
    rw [hr0] at hRw
    injection hRw with hq'
    have hsa : rewriteStageAggs [] q
        = q.withTargetList (q.targetList
            ++ (addAggColumns [] q.targetList (q.targetList.length + 1)).1) := by
      unfold rewriteStageAggs
      rw [if_pos hAggs]
    have hscCond : (rewriteStageAggs [] q).distinctClause ≠ []
        ∨ (rewriteStageAggs [] q).hasAggs = true := by
      right
      rw [hsa, withTargetList_hasAggs]
      exact hAggs
    have hsc : rewriteStageCount (rewriteStageAggs [] q)
        = ((rewriteStageAggs [] q).withTargetList
            ((rewriteStageAggs [] q).targetList
              ++ [ivmCountTle ((rewriteStageAggs [] q).targetList.length + 1)])).withHasAggs
              true := by
      unfold rewriteStageCount
      rw [if_pos hscCond]
    have htl' : q'.targetList
        = (q.targetList
            ++ (addAggColumns [] q.targetList (q.targetList.length + 1)).1)
          ++ [ivmCountTle ((q.targetList
              ++ (addAggColumns [] q.targetList (q.targetList.length + 1)).1).length
            + 1)] := by
      rw [← hq', hsc, withHasAggs_targetList, withTargetList_targetList, hsa,
        withTargetList_targetList]
    rw [hSplit] at htl' hContig
    have hdec := addAggColumns_avg_split tl0 tl1 te fno ty lvl argtys args
      b1 b2 b3 hExpr hAvg ((tl0 ++ te :: tl1).length + 1)
    rw [hName] at hdec
    have hp0len := addAggColumns_len [] tl0 ((tl0 ++ te :: tl1).length + 1)
    have hTlen : (tl0 ++ te :: tl1).length = tl0.length + (tl1.length + 1) := by
      simp
    obtain ⟨pre, r1, hps⟩ : ∃ pre r1,
        addAggColumns [] tl0 ((tl0 ++ te :: tl1).length + 1) = (pre, r1) :=
      ⟨_, _, rfl⟩
    rw [hps] at hdec hp0len
    dsimp only at hdec hp0len
    obtain ⟨post, r2x, hpo⟩ : ∃ post r2x,
        addAggColumns [] tl1 (r1 + 2) = (post, r2x) := ⟨_, _, rfl⟩
    rw [hpo] at hdec
    dsimp only at hdec
    obtain ⟨comps, r3x, hcm⟩ : ∃ comps r3x,
        addAggColumns [] (tl0 ++ te :: tl1) ((tl0 ++ te :: tl1).length + 1)
          = (comps, r3x) := ⟨_, _, rfl⟩
    rw [hcm] at hdec htl'
    dsimp only at hdec htl'
    have hclen : comps.length = pre.length + (2 + post.length) := by
      rw [hdec]
      simp [List.length_append]
      omega
    have hlenTC : ((tl0 ++ te :: tl1) ++ comps).length
        = (tl0 ++ te :: tl1).length + comps.length := List.length_append _ _
    refine ⟨(tl0 ++ te :: tl1).length + pre.length, ?_, ?_, ?_, ?_, ?_⟩
    · rw [htl']
      rw [List.get?_append (show tl0.length < ((tl0 ++ te :: tl1) ++ comps).length
        by omega)]
      rw [List.get?_append (show tl0.length < (tl0 ++ te :: tl1).length by omega)]
      rw [List.get?_append_right (le_refl tl0.length)]
      simp
    · omega
    · rw [htl']
      rw [List.get?_append (show (tl0 ++ te :: tl1).length + pre.length
        < ((tl0 ++ te :: tl1) ++ comps).length by omega)]
      rw [List.get?_append_right (show (tl0 ++ te :: tl1).length
        ≤ (tl0 ++ te :: tl1).length + pre.length by omega)]
      have hidx : (tl0 ++ te :: tl1).length + pre.length
          - (tl0 ++ te :: tl1).length = pre.length := by
        omega
      rw [hidx, hdec]
      rw [List.get?_append_right (le_refl pre.length)]
      rw [Nat.sub_self]
      have hres : r1 = (tl0 ++ te :: tl1).length + pre.length + 1 := by
        omega
      rw [hres]
      rfl
    · rw [htl']
      rw [List.get?_append (show (tl0 ++ te :: tl1).length + pre.length + 1
        < ((tl0 ++ te :: tl1) ++ comps).length by omega)]
      rw [List.get?_append_right (show (tl0 ++ te :: tl1).length
        ≤ (tl0 ++ te :: tl1).length + pre.length + 1 by omega)]
      have hidx : (tl0 ++ te :: tl1).length + pre.length + 1
          - (tl0 ++ te :: tl1).length = pre.length + 1 := by
        omega
      rw [hidx, hdec]
      rw [List.get?_append_right (show pre.length ≤ pre.length + 1 by omega)]
      have hidx2 : pre.length + 1 - pre.length = 1 := by
        omega
      rw [hidx2]
      have hres : r1 + 1 = (tl0 ++ te :: tl1).length + pre.length + 1 + 1 := by
        omega
      rw [hres]
      rfl
    · rw [htl']
      apply resnosContiguous_append
      · apply resnosContiguous_append
        · exact hContig
        · intro i hi
          have h5 := addAggColumns_resnos [] (tl0 ++ te :: tl1)
            ((tl0 ++ te :: tl1).length + 1) i (by rw [hcm]; exact hi)
          rw [hcm] at h5
          dsimp only at h5
          rw [h5]
          omega
      · intro i hi
        simp only [List.length_singleton] at hi
        have hi0 : i = 0 := by omega
        subst hi0
        rfl

theorem C3_witness :
    c3q.hasSubLinks = false ∧ c3q.hasAggs = true
    ∧ c3q.targetList = [] ++ (TargetEntry.mk
        (.aggE F_AVG_INT4 NUMERICOID 0 [INT4OID] [.varE 1 2 INT4OID 0]
          false false false) 1 "x" false 0) :: []
    ∧ get_func_name F_AVG_INT4 = "avg"
    ∧ resnosContiguous c3q.targetList
    ∧ rewriteQueryForIMMV c3q [] = .ok c3out
    ∧ (∃ k,
        c3out.targetList.get? (List.length ([] : List TargetEntry)) =
          some (TargetEntry.mk
            (.aggE F_AVG_INT4 NUMERICOID 0 [INT4OID] [.varE 1 2 INT4OID 0]
              false false false) 1 "x" false 0)
        ∧ List.length ([] : List TargetEntry) < k
        ∧ c3out.targetList.get? k
            = some (TargetEntry.mk
                (ivm_count_companion_expr [.varE 1 2 INT4OID 0]) (k + 1)
                (makeObjectName "__ivm_count" "x" "_") false 0)
        ∧ c3out.targetList.get? (k + 1)
            = some (TargetEntry.mk
                (ivm_sum_companion_expr [INT4OID] [.varE 1 2 INT4OID 0]) (k + 2)
                (makeObjectName "__ivm_sum" "x" "_") false 0)
        ∧ resnosContiguous c3out.targetList) :=
  ⟨rfl, rfl, rfl, rfl,
    by
      intro i hi
      have h0 : i = 0 := by
        simp [c3q, Query.targetList] at hi
        omega
      subst h0
      rfl,
    rfl,
    C3_avg_companions c3q c3out [] []
      (TargetEntry.mk
        (.aggE F_AVG_INT4 NUMERICOID 0 [INT4OID] [.varE 1 2 INT4OID 0]
          false false false) 1 "x" false 0)
      F_AVG_INT4 NUMERICOID 0 [INT4OID] [.varE 1 2 INT4OID 0]
      false false false "x" rfl rfl rfl rfl rfl rfl
      (by
        intro i hi
        have h0 : i = 0 := by
          simp [c3q, Query.targetList] at hi
          omega
        subst h0
        rfl)
      rfl⟩

end PgIvm
